import Mathlib

/-!
Verification of the rfd-tool Rocket.Chat app against its specification.

The development shallowly embeds the TypeScript sources:
  * the webhook-signature crypto (`verifySignature`, `hmacSha256`,
    `sha256Bytes`, `timingSafeEqual`),
  * the discussion-URL helpers of `DiscussionManager`
    (`extractRoomIdFromUrl`, `isValidDiscussionUrl`, `buildDeepLink`,
    `slugify`),
  * the persistent `DiscussionStore` and the reconciliation handlers of the
    webhook endpoint (`handleCreated`, `handleUpdated`, `post`,
    `createDiscussion`, `updateDiscussion`), as a state machine over an
    explicit `World` that records an effect trace.

JavaScript machine integers are embedded as `Nat` with explicit reduction
modulo 2 ^ 32 where the source coerces with `>>> 0` or stores into a
`Uint32Array`; fallible code (a thrown exception) is embedded with
`Option` / `Except`.
-/

set_option maxRecDepth 8192

/-! ## Bytes and 32-bit words

A byte is a `Nat` below 256; a 32-bit word a `Nat` below 2 ^ 32.  All the
JavaScript bitwise operators in `src/unnamed/part_000` coerce to 32-bit
integers; signed (`Int32`) and unsigned (`Uint32`) readings share the same
bit pattern and every value the code observes passes through `>>> 0` or a
`Uint32Array` slot, so the embedding computes on the unsigned
representative throughout. -/

/-- Reduce modulo 2 ^ 32: the JavaScript `>>> 0` coercion on an integer. -/
def mod32 (x : Nat) : Nat := x % 4294967296

/-- Source `rotr(n, d) = (n >>> d) | (n << (32 - d))` on a `Uint32`
representative: the left shift is reduced modulo 2 ^ 32 as the JS 32-bit
shift does. -/
def rotr (n d : Nat) : Nat := (n >>> d) ||| mod32 (n <<< (32 - d))

/-- Big-endian 4-byte encoding of a 32-bit word (the `DataView.setUint32`
byte order with `littleEndian = false`). -/
def be32 (x : Nat) : List Nat :=
  [x / 16777216 % 256, x / 65536 % 256, x / 256 % 256, x % 256]

/-- Source `view.getUint32(off, false)`: big-endian read with the
`DataView` bounds check; `none` is the thrown `RangeError` when the 4 bytes
reach past the buffer. -/
def getUint32BE (buf : List Nat) (off : Nat) : Option Nat :=
  if off + 4 ≤ buf.length then
    some (buf.getD off 0 * 16777216 + buf.getD (off + 1) 0 * 65536 +
          buf.getD (off + 2) 0 * 256 + buf.getD (off + 3) 0)
  else
    none

/-! ## SHA-256 (`sha256Bytes`, src/unnamed/part_000 lines 108-205) -/

/-- The 64 SHA-256 round constants `K` (the source writes them in hex;
decimal here, same values). -/
def sha256K : List Nat :=
  [1116352408, 1899447441, 3049323471, 3921009573, 961987163, 1508970993,
   2453635748, 2870763221, 3624381080, 310598401, 607225278, 1426881987,
   1925078388, 2162078206, 2614888103, 3248222580, 3835390401, 4022224774,
   264347078, 604807628, 770255983, 1249150122, 1555081692, 1996064986,
   2554220882, 2821834349, 2952996808, 3210313671, 3336571891, 3584528711,
   113926993, 338241895, 666307205, 773529912, 1294757372, 1396182291,
   1695183700, 1986661051, 2177026350, 2456956037, 2730485921, 2820302411,
   3259730800, 3345764771, 3516065817, 3600352804, 4094571909, 275423344,
   430227734, 506948616, 659060556, 883997877, 958139571, 1322822218,
   1537002063, 1747873779, 1955562222, 2024104815, 2227730452, 2361852424,
   2428436474, 2756734187, 3204031479, 3329325298]

/-- The eight working registers / hash words. -/
structure Regs where
  a : Nat
  b : Nat
  c : Nat
  d : Nat
  e : Nat
  f : Nat
  g : Nat
  h : Nat
deriving DecidableEq

/-- Initial hash values `h0 .. h7` (decimal; the source writes them in hex). -/
def sha256Init : Regs :=
  ⟨1779033703, 3144134277, 1013904242, 2773480762,
   1359893119, 2600822924, 528734635, 1541459225⟩

/-- One step of the message-schedule expansion (`W[i] = W[i-16] + s0 +
W[i-7] + s1 >>> 0` for `16 ≤ i < 64`).  The schedule is kept reversed, the
newest word at the head, so `W[i-2]` is element 1, `W[i-7]` element 6,
`W[i-15]` element 14 and `W[i-16]` element 15. -/
def schedStep (w : List Nat) : List Nat :=
  let w15 := w.getD 14 0
  let w2 := w.getD 1 0
  let w7 := w.getD 6 0
  let w16 := w.getD 15 0
  let s0 := rotr w15 7 ^^^ rotr w15 18 ^^^ (w15 >>> 3)
  let s1 := rotr w2 17 ^^^ rotr w2 19 ^^^ (w2 >>> 10)
  mod32 (w16 + s0 + w7 + s1) :: w

/-- Iterate the schedule expansion `n` times. -/
def extendSched : Nat → List Nat → List Nat
  | 0, w => w
  | n + 1, w => extendSched n (schedStep w)

/-- One round of the compression main loop (`i`-th entry of `zip K W`). -/
def sha256Round (r : Regs) (kw : Nat × Nat) : Regs :=
  let S1 := rotr r.e 6 ^^^ rotr r.e 11 ^^^ rotr r.e 25
  let ch := (r.e &&& r.f) ^^^ ((4294967295 - r.e) &&& r.g)
  let temp1 := mod32 (r.h + S1 + ch + kw.1 + kw.2)
  let S0 := rotr r.a 2 ^^^ rotr r.a 13 ^^^ rotr r.a 22
  let maj := (r.a &&& r.b) ^^^ (r.a &&& r.c) ^^^ (r.b &&& r.c)
  let temp2 := mod32 (S0 + maj)
  ⟨mod32 (temp1 + temp2), r.a, r.b, r.c, mod32 (r.d + temp1), r.e, r.f, r.g⟩

/-- Read the 16 schedule words `W[0..15]` of the block at `off`; `none` is
the `RangeError` of an out-of-bounds `getUint32`. -/
def readW16 (buf : List Nat) (off : Nat) : Nat → Option (List Nat)
  | 0 => some []
  | n + 1 =>
    match getUint32BE buf (off + 4 * (16 - (n + 1))), readW16 buf off n with
    | some w, some ws => some (w :: ws)
    | _, _ => none

/-- Process one 512-bit block at `off`: schedule expansion then 64 rounds,
then the per-block addition into the hash words. -/
def sha256Block (buf : List Nat) (off : Nat) (hs : Regs) : Option Regs :=
  match readW16 buf off 16 with
  | none => none
  | some w16 =>
    let W := (extendSched 48 w16.reverse).reverse
    let r := (sha256K.zip W).foldl sha256Round hs
    some ⟨mod32 (hs.a + r.a), mod32 (hs.b + r.b), mod32 (hs.c + r.c),
          mod32 (hs.d + r.d), mod32 (hs.e + r.e), mod32 (hs.f + r.f),
          mod32 (hs.g + r.g), mod32 (hs.h + r.h)⟩

/-- Run `count` iterations of the block loop starting at byte offset
`off`. -/
def sha256Loop (buf : List Nat) : Nat → Nat → Regs → Option Regs
  | _, 0, hs => some hs
  | off, n + 1, hs =>
    match sha256Block buf off hs with
    | none => none
    | some hs' => sha256Loop buf (off + 64) n hs'

/-- `sha256Bytes` of src/unnamed/part_000.  The source computes
`paddingLength = ((448 - (bitLength + 1) % 512) + 512) % 512` (an integer)
and `totalLength = data.length + 1 + paddingLength / 8 + 8` in JavaScript
float arithmetic, so `totalLength` carries the fractional part of
`paddingLength / 8`.  The embedding tracks `totalLength` exactly in units
of an eighth of a byte (`totalLen8`, always representable):

  * the `Uint8Array(totalLength)` length and the `setUint32(totalLength-4)`
    offset truncate, giving `paddedLen = totalLen8 / 8` (`Nat` division);
  * the loop `for (offset = 0; offset < totalLength; offset += 64)` runs
    while `8 * offset < totalLen8`, i.e. `ceil(totalLen8 / 512)` times;
  * `448 - r + 512` is written `960 - r`, identical for `0 ≤ r ≤ 511` and
    never negative, matching the JS value.

The buffer is built as data, the `0x80` byte, zero fill, and the 64-bit
big-endian length field whose low 4 bytes `setUint32` overwrites with
`bitLength` coerced to `Uint32` (the high 4 bytes stay zero).
`none` is a thrown `RangeError`. -/
def sha256Bytes (data : List Nat) : Option (List Nat) :=
  let bitLength := data.length * 8
  let padBits := (960 - (bitLength + 1) % 512) % 512
  let totalLen8 := 8 * data.length + 72 + padBits
  let paddedLen := totalLen8 / 8
  let padded := data ++ 0x80 :: List.replicate (paddedLen - data.length - 5) 0 ++
    be32 (mod32 bitLength)
  let nBlocks := if totalLen8 % 512 == 0 then totalLen8 / 512 else totalLen8 / 512 + 1
  match sha256Loop padded 0 nBlocks sha256Init with
  | none => none
  | some hs =>
    some (be32 hs.a ++ be32 hs.b ++ be32 hs.c ++ be32 hs.d ++
          be32 hs.e ++ be32 hs.f ++ be32 hs.g ++ be32 hs.h)

/-- Modelled from the spec: the FIPS 180-4 padding counts the whole `0x80`
byte, i.e. uses `(bitLength + 8) % 512` where the source wrote
`(bitLength + 1) % 512`.  With it `totalLength` is an exact integer and the
block loop stays inside the buffer.  Kept only to show that this one-token
change is the repair the spec describes. -/
def sha256BytesFixed (data : List Nat) : Option (List Nat) :=
  let bitLength := data.length * 8
  let padBits := (960 - (bitLength + 8) % 512) % 512
  let totalLen8 := 8 * data.length + 72 + padBits
  let paddedLen := totalLen8 / 8
  let padded := data ++ 0x80 :: List.replicate (paddedLen - data.length - 5) 0 ++
    be32 (mod32 bitLength)
  let nBlocks := if totalLen8 % 512 == 0 then totalLen8 / 512 else totalLen8 / 512 + 1
  match sha256Loop padded 0 nBlocks sha256Init with
  | none => none
  | some hs =>
    some (be32 hs.a ++ be32 hs.b ++ be32 hs.c ++ be32 hs.d ++
          be32 hs.e ++ be32 hs.f ++ be32 hs.g ++ be32 hs.h)

/-! ## Strings, UTF-8 and hex (src/unnamed/part_000 lines 94-103) -/

/-- UTF-8 encoding of one code point (what `TextEncoder.encode` emits per
character). -/
def utf8Bytes (c : Char) : List Nat :=
  let n := c.toNat
  if n < 0x80 then [n]
  else if n < 0x800 then
    [0xc0 ||| n >>> 6, 0x80 ||| (n &&& 0x3f)]
  else if n < 0x10000 then
    [0xe0 ||| n >>> 12, 0x80 ||| (n >>> 6 &&& 0x3f), 0x80 ||| (n &&& 0x3f)]
  else
    [0xf0 ||| n >>> 18, 0x80 ||| (n >>> 12 &&& 0x3f),
     0x80 ||| (n >>> 6 &&& 0x3f), 0x80 ||| (n &&& 0x3f)]

/-- Source `stringToBytes`: `TextEncoder().encode(str)`, the UTF-8 bytes. -/
def stringToBytes (s : String) : List Nat :=
  s.data.foldr (fun c acc => utf8Bytes c ++ acc) []

/-- One lowercase hex digit. -/
def hexDigit (n : Nat) : Char :=
  if n < 10 then Char.ofNat (48 + n) else Char.ofNat (87 + n)

/-- Source `bytesToHex`: each byte as `b.toString(16).padStart(2, '0')`,
joined — two lowercase hex digits per byte since every byte is below 256. -/
def bytesToHex (bs : List Nat) : String :=
  ⟨bs.foldr (fun b acc => hexDigit (b / 16) :: hexDigit (b % 16) :: acc) []⟩

/-! ## Timing-safe comparison (src/unnamed/part_000 lines 34-45)

`charCodeAt` is embedded as `Char.toNat`. -/

/-- The loop `result |= a.charCodeAt(i) ^ b.charCodeAt(i)` over the paired
characters, accumulating into `acc`. -/
def tseFold : List Char → List Char → Nat → Nat
  | a :: as, b :: bs, acc => tseFold as bs (acc ||| (a.toNat ^^^ b.toNat))
  | _, _, acc => acc

/-- Source `timingSafeEqual`: equal length required, then the XOR
accumulator must come out zero. -/
def timingSafeEqual (a b : String) : Bool :=
  if a.length ≠ b.length then false
  else tseFold a.data b.data 0 == 0

/-- Comparison-count instrumentation of the same loop: the second component
counts the character comparisons performed. -/
def tseFoldCount : List Char → List Char → Nat × Nat → Nat × Nat
  | a :: as, b :: bs, (acc, k) => tseFoldCount as bs (acc ||| (a.toNat ^^^ b.toNat), k + 1)
  | _, _, p => p

/-- `timingSafeEqual` with its comparison count. -/
def timingSafeEqualInstr (a b : String) : Bool × Nat :=
  if a.length ≠ b.length then (false, 0)
  else
    let p := tseFoldCount a.data b.data (0, 0)
    (p.1 == 0, p.2)

/-! ## HMAC-SHA-256 and signature verification
(src/unnamed/part_000 lines 5-15 and 51-92) -/

/-- Source `hmacSha256` (also reached as `computeHmacSha256`, which merely
forwards to it): RFC 2104 over `sha256Bytes`, hex-encoded.  `none` is a
`RangeError` escaping from `sha256Bytes`. -/
def hmacSha256 (message key : String) : Option String :=
  let keyBytes0 := stringToBytes key
  let messageBytes := stringToBytes message
  let keyHashed := if keyBytes0.length > 64 then sha256Bytes keyBytes0 else some keyBytes0
  match keyHashed with
  | none => none
  | some kb0 =>
    let keyBytes := if kb0.length < 64 then kb0 ++ List.replicate (64 - kb0.length) 0 else kb0
    let innerPadded := keyBytes.map (fun b => b ^^^ 0x36)
    let outerPadded := keyBytes.map (fun b => b ^^^ 0x5c)
    match sha256Bytes (innerPadded ++ messageBytes) with
    | none => none
    | some innerHash =>
      match sha256Bytes (outerPadded ++ innerHash) with
      | none => none
      | some finalHash => some (bytesToHex finalHash)

/-- JavaScript `s.startsWith(pre)`, over the character sequence. -/
def strHasPrefix (s pre : String) : Bool := pre.data.isPrefixOf s.data

/-- JavaScript `s.slice(n)` (here only used with ASCII content, where
UTF-16 units and characters coincide). -/
def jsSlice (s : String) (n : Nat) : String := ⟨s.data.drop n⟩

/-- Source `verifySignature` (src/unnamed/part_000, the full
implementation; the sibling `src/lib/crypto.ts` carries a skip-verification
stub of the same name that returns `true` for any `sha256=`-prefixed
header).  `none` is a thrown exception — the `RangeError` that every
`hmacSha256` call raises through the buggy `sha256Bytes` padding. -/
def verifySignature (body signature secret : String) : Option Bool :=
  if signature = "" ∨ ¬ strHasPrefix signature "sha256=" then some false
  else
    let providedHash := jsSlice signature 7
    match hmacSha256 body secret with
    | none => none
    | some expectedHash => some (timingSafeEqual providedHash expectedHash)

/-! ## Claims about the crypto -/

/-- C5: the claim says the SHA-256 primitive matches the FIPS 180-4 test
vectors; in fact `sha256Bytes` throws a `RangeError` on every input — the
padding formula counts the `0x80` byte as 1 bit instead of 8, so
`totalLength` is fractional, the block loop runs one extra iteration and
reads past the `DataView` — hence neither vector is produced. -/
theorem sha256Bytes_throws_on_test_vectors :
    sha256Bytes (stringToBytes "") = none ∧
    sha256Bytes (stringToBytes "abc") = none := by
  constructor <;> decide

/-- Repairing exactly the padding slip (counting the appended `0x80` byte
as 8 bits, `(bitLength + 8)` for the source's `(bitLength + 1)`) yields the
two published FIPS 180-4 digests the spec quotes, confirming the intent
behind `sha256Bytes`. -/
theorem sha256BytesFixed_matches_test_vectors :
    (sha256BytesFixed (stringToBytes "")).map bytesToHex =
      some "e3b0c44298fc1c149afbf4c8996fb92427ae41e4649b934ca495991b7852b855" ∧
    (sha256BytesFixed (stringToBytes "abc")).map bytesToHex =
      some "ba7816bf8f01cfea414140de5dae2223b00361a396177a9cb410ff61f20015ad" := by
  constructor <;> decide

/-- C1: the claim describes `verifySignature` returning false for a bad
prefix, false for a wrong-length or wrong-valued digest, and true exactly
for the correct HMAC hex.  The prefix cases do return false, but for every
`sha256=`-prefixed signature the function throws (the `RangeError` of
`sha256Bytes` propagates through `hmacSha256`), so it never returns a
boolean verdict on any digest, right or wrong. -/
theorem verifySignature_throws_past_prefix_check :
    verifySignature "" "" "" = some false ∧
    verifySignature "" "bad" "" = some false ∧
    verifySignature "" ("sha256=" ++ String.mk (List.replicate 64 '0')) "" = none ∧
    hmacSha256 "" "" = none := by
  refine ⟨by decide, by decide, by decide, by decide⟩

/-- The instrumented fold agrees with the plain fold and performs exactly
`min` of the two lengths comparisons on top of its starting count. -/
theorem tseFoldCount_spec (as : List Char) : ∀ (bs : List Char) (acc k : Nat),
    (tseFoldCount as bs (acc, k)).1 = tseFold as bs acc ∧
    (tseFoldCount as bs (acc, k)).2 = k + min as.length bs.length := by
  induction as with
  | nil => intro bs acc k; cases bs <;> simp [tseFoldCount, tseFold]
  | cons a as ih =>
    intro bs acc k
    cases bs with
    | nil => simp [tseFoldCount, tseFold]
    | cons b bs =>
      have h := ih bs (acc ||| (a.toNat ^^^ b.toNat)) (k + 1)
      refine ⟨by simpa [tseFoldCount, tseFold] using h.1, ?_⟩
      have h2 := h.2
      simp only [tseFoldCount, tseFold, List.length_cons] at h2 ⊢
      omega

/-- C6: for every pair of equal-length strings the comparison performed by
`verifySignature` (its `timingSafeEqual`) examines every character position
before returning — `timingSafeEqualInstr` counts exactly `a.length`
character comparisons whatever the contents, so the count is independent of
where the first mismatch occurs, and its verdict coincides with
`timingSafeEqual`. -/
theorem timingSafeEqual_examines_every_position (a b : String)
    (h : a.length = b.length) :
    (timingSafeEqualInstr a b).2 = a.length ∧
    (timingSafeEqualInstr a b).1 = timingSafeEqual a b := by
  have hne : ¬ a.length ≠ b.length := fun hc => hc h
  have hd : a.data.length = b.data.length := h
  have hs := tseFoldCount_spec a.data b.data 0 0
  unfold timingSafeEqualInstr timingSafeEqual
  rw [if_neg hne, if_neg hne]
  refine ⟨?_, ?_⟩
  · show (tseFoldCount a.data b.data (0, 0)).2 = a.length
    rw [hs.2, Nat.zero_add, hd, Nat.min_self]
    exact hd.symm
  · show ((tseFoldCount a.data b.data (0, 0)).1 == 0) = (tseFold a.data b.data 0 == 0)
    rw [hs.1]

/-- Witness for C6 at concrete input: "ab" versus "xb" (mismatch at the
first position) still performs 2 comparisons, the full length. -/
theorem timingSafeEqual_examines_every_position_witness :
    ("ab" : String).length = ("xb" : String).length ∧
    ((timingSafeEqualInstr "ab" "xb").2 = ("ab" : String).length ∧
     (timingSafeEqualInstr "ab" "xb").1 = timingSafeEqual "ab" "xb") :=
  ⟨by decide, timingSafeEqual_examines_every_position "ab" "xb" (by decide)⟩

/-! ## Discussion-URL helpers (src/lib/DiscussionManager.ts lines 595-683)

JavaScript string scanning is embedded over `List Char` (all inputs the
claims exercise are ASCII, where UTF-16 units and characters coincide);
`toLowerCase` is `Char.toLower`, which agrees with it on ASCII. -/

/-- Lowercase a string character-wise (`s.toLowerCase()` on ASCII). -/
def strLower (s : String) : String := ⟨s.data.map Char.toLower⟩

/-- The characters `encodeURIComponent` leaves unescaped: ASCII
alphanumerics and `- _ . ! ~ * ' ( )`. -/
def uriUnescaped (c : Char) : Bool :=
  (('a' ≤ c && c ≤ 'z') || ('A' ≤ c && c ≤ 'Z') || ('0' ≤ c && c ≤ '9')) ||
    "-_.!~*'()".data.contains c

/-- One uppercase hex digit (the case `encodeURIComponent` emits). -/
def hexDigitU (n : Nat) : Char :=
  if n < 10 then Char.ofNat (48 + n) else Char.ofNat (55 + n)

/-- `encodeURIComponent` on one character: unescaped characters pass
through, everything else becomes `%XX` per UTF-8 byte. -/
def encChar (c : Char) : List Char :=
  if uriUnescaped c then [c]
  else (utf8Bytes c).foldr
    (fun b acc => '%' :: hexDigitU (b / 16) :: hexDigitU (b % 16) :: acc) []

/-- JavaScript `encodeURIComponent`, character-wise. -/
def encodeURIComponent (s : String) : String :=
  ⟨s.data.foldr (fun c acc => encChar c ++ acc) []⟩

/-- The value of one hex digit character, if it is one. -/
def hexVal (c : Char) : Option Nat :=
  if '0' ≤ c && c ≤ '9' then some (c.toNat - 48)
  else if 'a' ≤ c && c ≤ 'f' then some (c.toNat - 87)
  else if 'A' ≤ c && c ≤ 'F' then some (c.toNat - 55)
  else none

/-- JavaScript `decodeURIComponent`, modelled for single-byte (ASCII)
percent-escapes — every use in this development decodes pure-ASCII room
ids.  A malformed escape (a `URIError`) and a multi-byte escape (not
modelled) are both `none`. -/
def percentDecode : List Char → Option (List Char)
  | [] => some []
  | c :: rest =>
    if c = '%' then
      match rest with
      | c1 :: c2 :: rest2 =>
        match hexVal c1, hexVal c2 with
        | some hi, some lo =>
          let b := 16 * hi + lo
          if b < 128 then (percentDecode rest2).map (fun t => Char.ofNat b :: t)
          else none
        | _, _ => none
      | _ => none
    else (percentDecode rest).map (fun t => c :: t)

/-- String-level wrapper for `percentDecode`. -/
def decodeURIComponentM (s : String) : Option String :=
  (percentDecode s.data).map (fun l => ⟨l⟩)

/-- Characters that end the capture of `/\/group\/([^\/\?]+)/`. -/
def groupDelim (c : Char) : Bool := c == '/' || c == '?'

/-- The regex `/\/group\/([^\/\?]+)/` as a leftmost-match scanner: at each
position, match the literal `/group/` followed by one or more characters
other than `/` and `?`, and capture the maximal such run. -/
def scanGroup : List Char → Option (List Char)
  | [] => none
  | c :: cs =>
    if "/group/".data.isPrefixOf (c :: cs) then
      match (c :: cs).drop 7 with
      | [] => scanGroup cs
      | d :: ds => if groupDelim d then scanGroup cs else some (d :: ds.takeWhile (fun x => !groupDelim x))
    else scanGroup cs

/-- Case-insensitive character equality (the regex `i` flag on ASCII). -/
def ciEq (a b : Char) : Bool := a.toLower == b.toLower

/-- Case-insensitive prefix test. -/
def ciHasPrefix : List Char → List Char → Bool
  | [], _ => true
  | _ :: _, [] => false
  | a :: as, b :: bs => ciEq a b && ciHasPrefix as bs

/-- The regex `/[?&]path=group(?:%2F|\/)([^&]+)/i` as a leftmost-match
scanner: a `?` or `&`, the literal `path=group` (case-insensitive), then
`%2F` (case-insensitive) or `/`, then a non-empty maximal run of
non-`&` characters, captured. -/
def scanPath : List Char → Option (List Char)
  | [] => none
  | c :: cs =>
    if c = '?' ∨ c = '&' then
      if ciHasPrefix "path=group".data cs then
        let rest := cs.drop 10
        let afterSlash : Option (List Char) :=
          if ciHasPrefix "%2f".data rest then some (rest.drop 3)
          else
            match rest with
            | '/' :: r => some r
            | _ => none
        match afterSlash with
        | some r =>
          match r with
          | [] => scanPath cs
          | d :: ds => if d = '&' then scanPath cs else some (d :: ds.takeWhile (fun x => !(x == '&')))
        | none => scanPath cs
      else scanPath cs
    else scanPath cs

/-- `DiscussionManager.extractRoomIdFromUrl` (lines 603-617): the direct
`/group/ROOM_ID` pattern first, then the `go.rocket.chat` deep-link
pattern, whose capture is `decodeURIComponent`-ed (a `URIError` there,
which likewise produces no room id for the caller, is collapsed to
`none`). -/
def extractRoomIdFromUrl (url : String) : Option String :=
  match scanGroup url.data with
  | some cap => some ⟨cap⟩
  | none =>
    match scanPath url.data with
    | some cap => decodeURIComponentM ⟨cap⟩
    | none => none

/-- The webhook endpoint's own private `extractRoomIdFromUrl`
(src/unnamed/part_001 lines 179-182): only the direct pattern. -/
def endpointExtractRoomId (url : String) : Option String :=
  (scanGroup url.data).map (fun cap => ⟨cap⟩)

/-- Characters that end an authority (host) segment: `/`, `?`, `#`. -/
def hostDelim (c : Char) : Bool := c == '/' || c == '?' || c == '#'

/-- Strip a leading `http://` or `https://` (the two alternatives of the
source's `^(?:https?:\/\/)?` group; they cannot both match). -/
def stripScheme (s : String) : String :=
  if strHasPrefix s "https://" then jsSlice s 8
  else if strHasPrefix s "http://" then jsSlice s 7
  else s

/-- The fallback host extraction of `buildDeepLink` (lines 675-678):
`siteUrl.match(/^(?:https?:\/\/)?([^\/\?\#]+)/)`, with the regex engine's
backtracking into the scheme-less reading when the captured group would
otherwise be empty, and `siteUrl` itself when there is no match at all. -/
def fallbackHost (s : String) : String :=
  let cap := (stripScheme s).data.takeWhile (fun c => !hostDelim c)
  if cap ≠ [] then ⟨cap⟩
  else
    let cap2 := s.data.takeWhile (fun c => !hostDelim c)
    if cap2 ≠ [] then ⟨cap2⟩ else s

/-- What the embedding keeps of a parsed WHATWG URL: the (lowercased) host
and the decoded `searchParams` pairs. -/
structure JSURL where
  host : String
  query : List (String × String)
deriving DecidableEq

/-- `application/x-www-form-urlencoded` decoding used by `searchParams`:
`+` becomes a space, a valid ASCII `%XX` escape is decoded, a malformed
escape passes through literally.  Multi-byte escapes are not modelled
(collapsed to U+FFFD); every query this development reads is ASCII. -/
def formDecode : List Char → List Char
  | [] => []
  | '+' :: rest => ' ' :: formDecode rest
  | '%' :: c1 :: c2 :: rest2 =>
    match hexVal c1, hexVal c2 with
    | some hi, some lo =>
      (if 16 * hi + lo < 128 then Char.ofNat (16 * hi + lo) else Char.ofNat 0xfffd) ::
        formDecode rest2
    | _, _ => '%' :: formDecode (c1 :: c2 :: rest2)
  | '%' :: rest => '%' :: formDecode rest
  | c :: rest => c :: formDecode rest

/-- Parse a query string into `searchParams` pairs: split on `&`, skip
empty pieces, split each piece at its first `=` (no `=` means an empty
value), form-decode both sides. -/
def parseQuery (l : List Char) : List (String × String) :=
  (l.splitOn '&').filterMap (fun piece =>
    match piece with
    | [] => none
    | _ :: _ =>
      let k := piece.takeWhile (fun c => !(c == '='))
      let v := piece.drop (k.length + 1)
      some (⟨formDecode k⟩, ⟨formDecode v⟩))

/-- `searchParams.get(k)`: the first value bound to `k`, or null. -/
def getParam (ps : List (String × String)) (k : String) : Option String :=
  (ps.find? (fun p => p.1 == k)).map (fun p => p.2)

/-- JavaScript `new URL(s)`, modelled for the shapes this code handles:
an `http://` or `https://` scheme, an authority without userinfo, the host
lowercased as WHATWG does, and the query taken between the first `?` (before
any `#`) and the fragment.  A scheme-less or empty-authority string throws
(`none`), which is what every call site catches. -/
def parseURL (s : String) : Option JSURL :=
  if strHasPrefix s "http://" ∨ strHasPrefix s "https://" then
    let rest := (stripScheme s).data
    let auth := rest.takeWhile (fun c => !hostDelim c)
    match auth with
    | [] => none
    | _ :: _ =>
      let afterAuth := rest.drop auth.length
      let beforeFrag := afterAuth.takeWhile (fun c => !(c == '#'))
      let q :=
        match beforeFrag.dropWhile (fun c => !(c == '?')) with
        | [] => []
        | _ :: t => t
      some ⟨⟨auth.map Char.toLower⟩, parseQuery q⟩
  else none

/-- `DiscussionManager.buildDeepLink` (lines 668-682): host from
`new URL(siteUrl).host`, falling back to the regex extraction when parsing
throws, then the `go.rocket.chat` universal link. -/
def buildDeepLink (siteUrl path : String) : String :=
  let host :=
    match parseURL siteUrl with
    | some u => u.host
    | none => fallbackHost siteUrl
  "https://go.rocket.chat/room?host=" ++ encodeURIComponent host ++
    "&path=" ++ encodeURIComponent path

/-- `DiscussionManager.isValidDiscussionUrl` (lines 628-658): an empty url
is invalid; a `go.rocket.chat` deep link is valid iff its `host` query
parameter is present, non-empty and equals the site host
case-insensitively; any other url is valid iff its host equals the site
host case-insensitively; a URL-parse failure (of either argument) is caught
and invalid. -/
def isValidDiscussionUrl (url siteUrl : String) : Bool :=
  if url = "" then false
  else
    match parseURL url, parseURL siteUrl with
    | some pu, some psu =>
      if strLower pu.host = "go.rocket.chat" then
        match getParam pu.query "host" with
        | none => false
        | some hp => if hp = "" then false else strLower hp == strLower psu.host
      else strLower pu.host == strLower psu.host
    | _, _ => false

/-! ## Claims about the URL helpers -/

theorem encFoldr_acc (l : List Char) (acc : List Char) :
    l.foldr (fun c a => encChar c ++ a) acc =
      l.foldr (fun c a => encChar c ++ a) [] ++ acc := by
  induction l with
  | nil => rfl
  | cons c cs ih => simp [List.foldr_cons, ih, List.append_assoc]

theorem encodeURIComponent_append (a b : String) :
    encodeURIComponent (a ++ b) = encodeURIComponent a ++ encodeURIComponent b := by
  show (⟨((a ++ b).data).foldr (fun c acc => encChar c ++ acc) []⟩ : String) = _
  rw [String.data_append, List.foldr_append, encFoldr_acc]
  rfl

theorem encodeURIComponent_of_urlSafe (s : String) (h : ∀ c ∈ s.data, uriUnescaped c = true) :
    encodeURIComponent s = s := by
  have : ∀ l : List Char, (∀ c ∈ l, uriUnescaped c = true) →
      l.foldr (fun c a => encChar c ++ a) [] = l := by
    intro l hl
    induction l with
    | nil => rfl
    | cons c cs ih =>
      have hc := hl c (by simp)
      simp only [List.foldr_cons]
      rw [ih (fun x hx => hl x (by simp [hx]))]
      show encChar c ++ cs = c :: cs
      rw [encChar, if_pos hc]
      rfl
  show (⟨s.data.foldr (fun c acc => encChar c ++ acc) []⟩ : String) = s
  rw [this s.data h]

theorem percentDecode_no_pct : ∀ l : List Char, (∀ c ∈ l, c ≠ '%') → percentDecode l = some l := by
  intro l
  induction l with
  | nil => intro; rfl
  | cons c cs ih =>
    intro h
    have hc : ¬ c = '%' := h c (by simp)
    unfold percentDecode
    rw [if_neg hc, ih (fun x hx => h x (by simp [hx]))]
    rfl

theorem takeWhile_of_all (p : Char → Bool) : ∀ l : List Char, (∀ c ∈ l, p c = true) →
    l.takeWhile p = l := by
  intro l h
  exact List.takeWhile_eq_self_iff.mpr h

theorem scanGroup_of_no_slash : ∀ l : List Char, (∀ c ∈ l, c ≠ '/') → scanGroup l = none := by
  intro l
  induction l with
  | nil => intro; rfl
  | cons c cs ih =>
    intro h
    have hc : ('/' == c) = false := beq_eq_false_iff_ne.mpr (Ne.symm (h c (by simp)))
    have hcond : ("/group/".data.isPrefixOf (c :: cs)) = false := by
      have e : ("/group/".data.isPrefixOf (c :: cs)) =
          (('/' == c) && ("group/".data.isPrefixOf cs)) := rfl
      rw [e, hc, Bool.false_and]
    unfold scanGroup
    rw [hcond]
    exact ih (fun x hx => h x (by simp [hx]))

theorem scanPath_cons (c : Char) (cs : List Char) :
    scanPath (c :: cs) =
      if c = '?' ∨ c = '&' then
        (if ciHasPrefix "path=group".data cs then
          match (if ciHasPrefix "%2f".data (cs.drop 10) then some ((cs.drop 10).drop 3)
                 else match cs.drop 10 with
                      | '/' :: r => some r
                      | _ => none) with
          | some r =>
            match r with
            | [] => scanPath cs
            | d :: ds =>
              if d = '&' then scanPath cs
              else some (d :: ds.takeWhile (fun x => !(x == '&')))
          | none => scanPath cs
        else scanPath cs)
      else scanPath cs := rfl

theorem scanPath_skip : ∀ (H : List Char) (t : List Char),
    (∀ c ∈ H, ¬ (c = '?' ∨ c = '&')) → scanPath (H ++ t) = scanPath t := by
  intro H
  induction H with
  | nil => intro t _; rfl
  | cons c cs ih =>
    intro t h
    have hc : ¬ (c = '?' ∨ c = '&') := h c (by simp)
    show scanPath (c :: (cs ++ t)) = scanPath t
    rw [scanPath_cons, if_neg hc]
    exact ih t (fun x hx => h x (by simp [hx]))

theorem scanPath_payload (d : Char) (ds : List Char) (hd : ¬ d = '&') :
    scanPath ("&path=group%2F".data ++ d :: ds) =
      some (d :: ds.takeWhile (fun x => !(x == '&'))) := by
  have e : scanPath ("&path=group%2F".data ++ d :: ds) =
      if d = '&' then scanPath ("path=group%2F".data ++ d :: ds)
      else some (d :: ds.takeWhile (fun x => !(x == '&'))) := rfl
  rw [e, if_neg hd]

def urlSafe (s : String) : Bool := s.data.all uriUnescaped

theorem uriUnescaped_ne (c : Char) (h : uriUnescaped c = true) :
    c ≠ '/' ∧ c ≠ '?' ∧ c ≠ '&' ∧ c ≠ '%' ∧ c ≠ '#' := by
  refine ⟨?_, ?_, ?_, ?_, ?_⟩ <;> rintro rfl <;> exact absurd h (by decide)

theorem urlSafe_mem (s : String) (h : urlSafe s = true) :
    ∀ c ∈ s.data, uriUnescaped c = true := by
  intro c hc
  exact List.all_eq_true.mp h c hc

theorem strHasPrefix_scheme_false (s : String) (h : urlSafe s = true) :
    strHasPrefix s "http://" = false ∧ strHasPrefix s "https://" = false := by
  constructor
  · refine Bool.eq_false_iff.mpr (fun hp => ?_)
    have hpre := List.isPrefixOf_iff_prefix.mp hp
    obtain ⟨t, ht⟩ := hpre
    have hmem : ':' ∈ s.data := by
      rw [← ht]
      exact List.mem_append_left _ (by decide)
    exact absurd (urlSafe_mem s h ':' hmem) (by decide)
  · refine Bool.eq_false_iff.mpr (fun hp => ?_)
    have hpre := List.isPrefixOf_iff_prefix.mp hp
    obtain ⟨t, ht⟩ := hpre
    have hmem : ':' ∈ s.data := by
      rw [← ht]
      exact List.mem_append_left _ (by decide)
    exact absurd (urlSafe_mem s h ':' hmem) (by decide)

theorem parseURL_of_urlSafe (s : String) (h : urlSafe s = true) : parseURL s = none := by
  have hs := strHasPrefix_scheme_false s h
  unfold parseURL
  rw [if_neg]
  rw [hs.1, hs.2]
  simp

theorem data_ne_nil (s : String) (h : s ≠ "") : s.data ≠ [] := by
  intro e
  apply h
  cases s with
  | mk l =>
    cases e
    rfl

theorem stripScheme_of_urlSafe (s : String) (h : urlSafe s = true) : stripScheme s = s := by
  have hs := strHasPrefix_scheme_false s h
  unfold stripScheme
  rw [hs.1, hs.2]
  simp

theorem fallbackHost_of_urlSafe (s : String) (h : urlSafe s = true) (hne : s ≠ "") :
    fallbackHost s = s := by
  have hall : ∀ c ∈ s.data, (!hostDelim c) = true := by
    intro c hc
    have hu := urlSafe_mem s h c hc
    have hn := uriUnescaped_ne c hu
    simp [hostDelim]
    exact ⟨⟨hn.1, hn.2.1⟩, hn.2.2.2.2⟩
  have htake : s.data.takeWhile (fun c => !hostDelim c) = s.data :=
    takeWhile_of_all _ s.data hall
  unfold fallbackHost
  rw [stripScheme_of_urlSafe s h, htake]
  rw [if_pos (data_ne_nil s hne)]

theorem buildDeepLink_of_urlSafe (host roomId : String) (hh : urlSafe host = true)
    (hhne : host ≠ "") (hr : urlSafe roomId = true) :
    buildDeepLink host ("group/" ++ roomId) =
      "https://go.rocket.chat/room?host=" ++ host ++ "&path=" ++
        ("group%2F" ++ roomId) := by
  unfold buildDeepLink
  rw [parseURL_of_urlSafe host hh]
  show "https://go.rocket.chat/room?host=" ++ encodeURIComponent (fallbackHost host) ++
      "&path=" ++ encodeURIComponent ("group/" ++ roomId) = _
  rw [fallbackHost_of_urlSafe host hh hhne,
    encodeURIComponent_of_urlSafe host (urlSafe_mem host hh),
    encodeURIComponent_append,
    encodeURIComponent_of_urlSafe roomId (urlSafe_mem roomId hr)]
  rfl

/-- C7: room-id extraction inverts URL construction.  A direct URL
`https://chat.example.com/group/ROOM123` extracts to `ROOM123`; the deep
link `https://go.rocket.chat/room?host=chat.example.com&path=group%2FROOM123`
extracts to `ROOM123`; and for every non-empty `(host, roomId)` pair of
URL-safe characters (those `encodeURIComponent` leaves unescaped),
extracting from `buildDeepLink host ("group/" ++ roomId)` returns
`roomId`. -/
theorem extractRoomId_roundtrip :
    extractRoomIdFromUrl "https://chat.example.com/group/ROOM123" = some "ROOM123" ∧
    extractRoomIdFromUrl
      "https://go.rocket.chat/room?host=chat.example.com&path=group%2FROOM123" =
      some "ROOM123" ∧
    (∀ host roomId : String, urlSafe host = true → urlSafe roomId = true →
      host ≠ "" → roomId ≠ "" →
      extractRoomIdFromUrl (buildDeepLink host ("group/" ++ roomId)) = some roomId) := by
  refine ⟨by decide, by decide, ?_⟩
  intro host roomId hh hr hhne hrne
  rw [buildDeepLink_of_urlSafe host roomId hh hhne hr]
  have hdata : ("https://go.rocket.chat/room?host=" ++ host ++ "&path=" ++
      ("group%2F" ++ roomId)).data =
      "https://go.rocket.chat/room?host=".data ++
        (host.data ++ ("&path=".data ++ ("group%2F".data ++ roomId.data))) := by
    simp [String.data_append, List.append_assoc]
  have hslash : ∀ c ∈ host.data ++ ("&path=".data ++ ("group%2F".data ++ roomId.data)),
      c ≠ '/' := by
    intro c hc
    rcases List.mem_append.mp hc with hH | hc2
    · exact (uriUnescaped_ne c (urlSafe_mem host hh c hH)).1
    rcases List.mem_append.mp hc2 with hA | hc3
    · exact (show ∀ x ∈ "&path=".data, x ≠ '/' by decide) c hA
    rcases List.mem_append.mp hc3 with hB | hR
    · exact (show ∀ x ∈ "group%2F".data, x ≠ '/' by decide) c hB
    · exact (uriUnescaped_ne c (urlSafe_mem roomId hr c hR)).1
  have hgroup : scanGroup ("https://go.rocket.chat/room?host=" ++ host ++ "&path=" ++
      ("group%2F" ++ roomId)).data = none := by
    rw [hdata]
    rw [show scanGroup ("https://go.rocket.chat/room?host=".data ++
        (host.data ++ ("&path=".data ++ ("group%2F".data ++ roomId.data)))) =
        scanGroup (host.data ++ ("&path=".data ++ ("group%2F".data ++ roomId.data)))
      from rfl]
    exact scanGroup_of_no_slash _ hslash
  obtain ⟨d, ds, hrd⟩ : ∃ d ds, roomId.data = d :: ds := by
    cases hc : roomId.data with
    | nil => exact absurd hc (data_ne_nil roomId hrne)
    | cons d ds => exact ⟨d, ds, rfl⟩
  have hdne : ¬ d = '&' := by
    have := (uriUnescaped_ne d (urlSafe_mem roomId hr d (by rw [hrd]; simp))).2.2.1
    exact this
  have hdstake : ds.takeWhile (fun x => !(x == '&')) = ds := by
    refine takeWhile_of_all _ ds (fun c hc => ?_)
    have hcm : c ∈ roomId.data := by rw [hrd]; simp [hc]
    have := (uriUnescaped_ne c (urlSafe_mem roomId hr c hcm)).2.2.1
    simp [this]
  have hpath : scanPath ("https://go.rocket.chat/room?host=" ++ host ++ "&path=" ++
      ("group%2F" ++ roomId)).data = some roomId.data := by
    rw [hdata]
    rw [show scanPath ("https://go.rocket.chat/room?host=".data ++
        (host.data ++ ("&path=".data ++ ("group%2F".data ++ roomId.data)))) =
        scanPath (host.data ++ ("&path=".data ++ ("group%2F".data ++ roomId.data)))
      from rfl]
    rw [scanPath_skip host.data _ (fun c hc => by
      have hn := uriUnescaped_ne c (urlSafe_mem host hh c hc)
      rintro (rfl | rfl)
      · exact hn.2.1 rfl
      · exact hn.2.2.1 rfl)]
    rw [hrd]
    rw [show ("&path=".data ++ ("group%2F".data ++ (d :: ds))) =
        ("&path=group%2F".data ++ (d :: ds)) from rfl]
    rw [scanPath_payload d ds hdne, hdstake]
  unfold extractRoomIdFromUrl
  rw [hgroup, hpath]
  show decodeURIComponentM ⟨roomId.data⟩ = some roomId
  unfold decodeURIComponentM
  rw [show (⟨roomId.data⟩ : String).data = roomId.data from rfl]
  rw [percentDecode_no_pct roomId.data (fun c hc =>
    (uriUnescaped_ne c (urlSafe_mem roomId hr c hc)).2.2.2.1)]
  rfl

/-- Witness for C7 at a concrete pair: the deep link built for host
`chat.example.com` and room `ROOM123` extracts back to `ROOM123`. -/
theorem extractRoomId_roundtrip_witness :
    urlSafe "chat.example.com" = true ∧ urlSafe "ROOM123" = true ∧
    extractRoomIdFromUrl (buildDeepLink "chat.example.com" ("group/" ++ "ROOM123")) =
      some "ROOM123" :=
  ⟨by decide, by decide,
    extractRoomId_roundtrip.2.2 "chat.example.com" "ROOM123"
      (by decide) (by decide) (by decide) (by decide)⟩

/-- C10: `isValidDiscussionUrl` is total over all string inputs — an empty
url, and any url whose parse throws (`parseURL` is `none`), yield `false`
through the catch rather than an exception aborting reconciliation. -/
theorem isValidDiscussionUrl_total :
    (∀ siteUrl : String, isValidDiscussionUrl "" siteUrl = false) ∧
    (∀ url siteUrl : String, parseURL url = none →
      isValidDiscussionUrl url siteUrl = false) := by
  constructor
  · intro s; rfl
  · intro url s h
    by_cases hu : url = ""
    · rw [hu]; rfl
    · unfold isValidDiscussionUrl
      rw [if_neg hu, h]

/-- Witness for C10: the unparseable string `notaurl` is judged invalid,
not thrown on. -/
theorem isValidDiscussionUrl_total_witness :
    parseURL "notaurl" = none ∧
    isValidDiscussionUrl "notaurl" "https://chat.example.com" = false :=
  ⟨by decide,
    isValidDiscussionUrl_total.2 "notaurl" "https://chat.example.com" (by decide)⟩

/-! ## Data model (src/lib/types.ts, second version in DiscussionStore.ts) -/

/-- The RFD lifecycle states. -/
inductive RFDState where
  | prediscussion
  | ideation
  | discussion
  | published
  | committed
  | abandoned
deriving DecidableEq

/-- `STATE_DESCRIPTIONS`. -/
def stateDescription : RFDState → String
  | .prediscussion => "🔒 Pre-Discussion - Not yet open for feedback"
  | .ideation => "💡 Ideation - Early idea, feedback welcome"
  | .discussion => "💬 Discussion - Actively seeking input"
  | .published => "📋 Published - Accepted, open for comments"
  | .committed => "✅ Committed - Implemented"
  | .abandoned => "❌ Abandoned - No longer being pursued"

/-- An RFD record.  The optional `discussion?: string` field is embedded as
a `String` whose empty value is the absent/falsy case, matching every
`if (payload.rfd.discussion)` truthiness test in the source. -/
structure RFD where
  id : String
  title : String
  authors : List String
  state : RFDState
  discussion : String
  tags : List String
  content : String
  contentMD : String
  createdAt : String
  modifiedAt : String
deriving DecidableEq

/-- An `(old, new)` pair of a changed field. -/
structure FieldChange (α : Type) where
  old : α
  new : α
deriving DecidableEq

/-- `RFDChanges`: absent fields are `none`; `content?: boolean` is a plain
`Bool` whose `false` covers both absent and false (both falsy). -/
structure RFDChanges where
  title : Option (FieldChange String)
  state : Option (FieldChange RFDState)
  authors : Option (FieldChange (List String))
  tags : Option (FieldChange (List String))
  discussion : Option (FieldChange String)
  content : Bool
deriving DecidableEq

/-- A webhook payload after validation (its `event` is kept a string so the
unknown-event branch is expressible). -/
structure WebhookPayload where
  event : String
  timestamp : String
  rfd : RFD
  link : String
  changes : Option RFDChanges
deriving DecidableEq

/-! ## The collaborator world

The chat platform and the persistent store are the external collaborators;
the embedding gives them one explicit state, and every boundary call both
acts on that state and appends an `Effect` to a trace, so frame claims
("zero collaborator calls") are statements about the trace. -/

/-- A chat user (`IUser`): username and email addresses (`emails?` absent
is the empty list). -/
structure ChatUser where
  username : String
  emails : List String
deriving DecidableEq

/-- A chat room (`IRoom`): id, the name `getByName` resolves, the parent
room of a discussion, and a description. -/
structure Room where
  id : String
  name : String
  parentId : Option String
  description : String
deriving DecidableEq

/-- One boundary call to the chat collaborator or the persistent store. -/
inductive Effect where
  | getRoomByName (name : String)
  | getRoomById (id : String)
  | getAppUser
  | createRoom (parentId displayName slug creator : String)
  | setDescription (roomId text : String)
  | getMembers (roomId : String)
  | addMember (roomId username : String)
  | getUserByUsername (username : String)
  | postMessage (roomId sender text : String)
  | storeGet (key : String)
  | storePut (key : String)
deriving DecidableEq

/-- `StoredDiscussion` of src/lib/DiscussionStore.ts; `new
Date().toISOString()` is embedded as the world's abstract clock value. -/
structure StoredDiscussion where
  rfdId : String
  roomId : String
  roomUrl : String
  createdAt : Nat
deriving DecidableEq

/-- The chat collaborator's state. -/
structure Chat where
  rooms : List Room
  roomMembers : List (String × List ChatUser)
  users : List ChatUser
  appUser : Option ChatUser
  nextId : Nat
  messages : List (String × String)
deriving DecidableEq

/-- The world one webhook delivery acts on: chat state, persistent store,
the clock, and the trace of boundary calls made so far. -/
structure World where
  chat : Chat
  store : List (String × StoredDiscussion)
  now : Nat
  trace : List Effect
deriving DecidableEq

/-- Append one effect to the trace. -/
def tr (w : World) (e : Effect) : World := { w with trace := w.trace ++ [e] }

/-- Resolve a room by name (`getRoomReader().getByName`). -/
def findRoomByName (c : Chat) (name : String) : Option Room :=
  c.rooms.find? (fun r => r.name == name)

/-- Resolve a room by id (`getRoomReader().getById`). -/
def findRoomById (c : Chat) (id : String) : Option Room :=
  c.rooms.find? (fun r => r.id == id)

/-- Members of a room (`getRoomReader().getMembers`). -/
def membersOf (c : Chat) (roomId : String) : List ChatUser :=
  ((c.roomMembers.find? (fun p => p.1 == roomId)).map (fun p => p.2)).getD []

/-- `rfd-discussion:` + rfdId, the namespaced association key. -/
def storeKey (rfdId : String) : String := "rfd-discussion:" ++ rfdId

/-- `readByAssociation`: the value stored under a key, if any. -/
def lookupStore (store : List (String × StoredDiscussion)) (key : String) :
    Option StoredDiscussion :=
  (store.find? (fun p => p.1 == key)).map (fun p => p.2)

/-- `updateByAssociation(association, data, true)`: single-key upsert —
replace the entry when the key is present, append it otherwise. -/
def assocUpdate (store : List (String × StoredDiscussion)) (key : String)
    (v : StoredDiscussion) : List (String × StoredDiscussion) :=
  if (store.find? (fun p => p.1 == key)).isSome then
    store.map (fun p => if p.1 == key then (key, v) else p)
  else store ++ [(key, v)]

/-- `DiscussionStore.storeDiscussion` on the raw store: always builds a
fresh record whose `createdAt` is the current time of the write. -/
def storeDiscussionFn (store : List (String × StoredDiscussion))
    (rfdId roomId roomUrl : String) (now : Nat) : List (String × StoredDiscussion) :=
  assocUpdate store (storeKey rfdId) ⟨rfdId, roomId, roomUrl, now⟩

/-- The computations of one delivery: they thread the world and may throw
(`Except.error` is a thrown `Error`, whose message the endpoint's catch
turns into a 500 response). -/
def App (α : Type) : Type := World → Except String α × World

/-! ## DiscussionManager (src/lib/DiscussionManager.ts lines 281-683,
the current version of the class) -/

/-- JavaScript whitespace for `trim` (the ASCII part; all inputs here are
ASCII). -/
def isWS (c : Char) : Bool := c == ' ' || c == '\t' || c == '\n' || c == '\r'

/-- JavaScript `s.trim()`. -/
def strTrim (s : String) : String :=
  ⟨((s.data.dropWhile isWS).reverse.dropWhile isWS).reverse⟩

/-- `Array.prototype.join(sep)`. -/
def joinSep (sep : String) : List String → String
  | [] => ""
  | [x] => x
  | x :: xs => x ++ sep ++ joinSep sep xs

/-- A lowercase ASCII letter or digit — what `[^a-z0-9]` lets through after
`toLowerCase`. -/
def isLowerAlnum (c : Char) : Bool :=
  ('a' ≤ c && c ≤ 'z') || ('0' ≤ c && c ≤ '9')

/-- Map every character outside `[a-z0-9]` to `-`. -/
def dashMap (l : List Char) : List Char :=
  l.map (fun c => if isLowerAlnum c then c else '-')

/-- Collapse runs of `-` to a single `-` (so `dashMap` then `dedupDash` is
the regex replace of `[^a-z0-9]+` by one `-`). -/
def dedupDash : List Char → List Char
  | [] => []
  | '-' :: '-' :: rest => dedupDash ('-' :: rest)
  | c :: rest => c :: dedupDash rest

/-- `DiscussionManager.slugify`: lowercase, non-alphanumeric runs to single
hyphens, leading/trailing hyphens trimmed, first 50 characters. -/
def slugify (text : String) : String :=
  let collapsed := dedupDash (dashMap (strLower text).data)
  let trimmed :=
    ((collapsed.dropWhile (fun c => c == '-')).reverse.dropWhile (fun c => c == '-')).reverse
  ⟨trimmed.take 50⟩

/-- The regex `/<([^>]+)>/`: the contents of the first `<...>` pair with at
least one character between the brackets. -/
def angleEmail : List Char → Option (List Char)
  | [] => none
  | c :: cs =>
    if c = '<' then
      let cap := cs.takeWhile (fun x => !(x == '>'))
      if cap ≠ [] ∧ cs.drop cap.length ≠ [] then some cap else angleEmail cs
    else angleEmail cs

/-- `DiscussionManager.buildDescription`: the state description and the
comma-joined tag list, `'none'` when the join is empty (`|| 'none'`). -/
def buildDescription (rfd : RFD) (rfdLink : String) : String :=
  stateDescription rfd.state ++ " | Tags: " ++
    (if joinSep ", " rfd.tags = "" then "none" else joinSep ", " rfd.tags)

/-- `setRoomDescription`: sets the room's description and logs the effect;
its try/catch never propagates. -/
def setRoomDescription (w : World) (roomId text : String) : World :=
  { w with
    chat := { w.chat with
      rooms := w.chat.rooms.map (fun r => if r.id == roomId then { r with description := text } else r) },
    trace := w.trace ++ [Effect.setDescription roomId text] }

/-- `addMemberToBeAddedByUsername` + `finish` (inside try/catch): appends
the member (the model keeps just the username) and logs the effect. -/
def addMemberOp (w : World) (roomId username : String) : World :=
  { w with
    chat := { w.chat with
      roomMembers := w.chat.roomMembers.map
        (fun p => if p.1 == roomId then (p.1, p.2 ++ [⟨username, []⟩]) else p) },
    trace := w.trace ++ [Effect.addMember roomId username] }

/-- `postMessage`: appends the message and logs the effect. -/
def postMsg (w : World) (roomId sender text : String) : World :=
  { w with
    chat := { w.chat with messages := w.chat.messages ++ [(roomId, text)] },
    trace := w.trace ++ [Effect.postMessage roomId sender text] }

/-- The per-author body of `addAuthorsToDiscussion`'s loop: parse the
author token (`Name <email>` or a bare email/username), resolve first by
member email, then by member username, then — when the token has no `@` —
by a direct username lookup, and add the match to the discussion room;
unresolved tokens are skipped. -/
def authorLoop (appUser : ChatUser) (discussion : Room) (members : List ChatUser) :
    List String → World → World
  | [], w => w
  | authorInput :: rest, w =>
    if strTrim authorInput = "" then authorLoop appUser discussion members rest w
    else
      let trimmedInput := strTrim authorInput
      let email :=
        match angleEmail trimmedInput.data with
        | some e => strLower ⟨e⟩
        | none => strLower trimmedInput
      let user0 := members.find? (fun m => m.emails.any (fun e => strLower e == email))
      let user1 :=
        match user0 with
        | some u => some u
        | none =>
          members.find? (fun m =>
            strLower m.username == email || strLower m.username == strLower trimmedInput)
      match user1 with
      | some u => authorLoop appUser discussion members rest (addMemberOp w discussion.id u.username)
      | none =>
        if email.data.contains '@' then authorLoop appUser discussion members rest w
        else
          let w := tr w (Effect.getUserByUsername trimmedInput)
          match w.chat.users.find? (fun u => u.username == trimmedInput) with
          | some u =>
            authorLoop appUser discussion members rest (addMemberOp w discussion.id u.username)
          | none => authorLoop appUser discussion members rest w

/-- `DiscussionManager.addAuthorsToDiscussion` (lines 477-557): app user,
parent-room membership, then the per-author loop.  Never throws. -/
def addAuthors (w : World) (discussion parentRoom : Room) (authorInputs : List String) : World :=
  let w := tr w Effect.getAppUser
  match w.chat.appUser with
  | none => w
  | some appUser =>
    let w := tr w (Effect.getMembers parentRoom.id)
    authorLoop appUser discussion (membersOf w.chat parentRoom.id) authorInputs w

/-- The introductory message `createDiscussion` posts. -/
def createMessage (pfx : String) (rfd : RFD) (rfdLink : String) : String :=
  "🎉 **New " ++ pfx ++ " Created**\n\n" ++ "**" ++ rfd.title ++ "**\n\n" ++
    stateDescription rfd.state ++ "\n\n" ++
    "🔗 [Read the full " ++ pfx ++ "](" ++ rfdLink ++ ")\n\n" ++
    "_Authors: " ++ joinSep ", " rfd.authors ++ "_"

/-- `DiscussionManager.createDiscussion` (lines 298-366): resolve parent
room and app user (each `NotFound` throws), create the discussion room (the
model hands out the fresh id `room<nextId>`; the source's falsy-id and
missing-room rethrows are kept as dead guards), set the description, add
the authors, post the introduction, and return the id with its deep-link
URL. -/
def createDiscussion (parentChannel : String) (rfd : RFD)
    (rfdLink siteUrl pfx : String) : App (String × String) := fun w =>
  let w := tr w (Effect.getRoomByName parentChannel)
  match findRoomByName w.chat parentChannel with
  | none => (Except.error ("Parent channel " ++ parentChannel ++ " not found"), w)
  | some parentRoom =>
    let w := tr w Effect.getAppUser
    match w.chat.appUser with
    | none => (Except.error "App user not found", w)
    | some appUser =>
      let discussionName := pfx ++ "-" ++ rfd.id ++ ": " ++ rfd.title
      let description := buildDescription rfd rfdLink
      let slug := slugify (strLower pfx ++ "-" ++ rfd.id ++ "-" ++ rfd.title)
      let discussionId := "room" ++ toString w.chat.nextId
      let newRoom : Room := ⟨discussionId, slug, some parentRoom.id, ""⟩
      let w := { w with
        chat := { w.chat with
          rooms := newRoom :: w.chat.rooms,
          roomMembers := (discussionId, ([] : List ChatUser)) :: w.chat.roomMembers,
          nextId := w.chat.nextId + 1 },
        trace := w.trace ++ [Effect.createRoom parentRoom.id discussionName slug appUser.username] }
      if discussionId = "" then (Except.error "Failed to create discussion", w)
      else
        let w := tr w (Effect.getRoomById discussionId)
        match findRoomById w.chat discussionId with
        | none => (Except.error "Discussion created but could not be retrieved", w)
        | some discussion =>
          let w := setRoomDescription w discussion.id
            (description ++ "\n\n📝 View ADR: " ++ rfdLink)
          let w := addAuthors w discussion parentRoom rfd.authors
          let w := postMsg w discussion.id appUser.username (createMessage pfx rfd rfdLink)
          (Except.ok (discussionId, buildDeepLink siteUrl ("group/" ++ discussionId)), w)

/-- The `changes.state` block of `updateDiscussion`: set the refreshed
description and report the status line. -/
def applyStateChange (w : World) (discussion : Room) (rfd : RFD) (rfdLink : String) :
    Option (FieldChange RFDState) → World × List String
  | some fc =>
    (setRoomDescription w discussion.id
      (buildDescription rfd rfdLink ++ "\n\n📝 View ADR: " ++ rfdLink),
     ["📊 **Status changed:** " ++ stateDescription fc.old ++ " → " ++ stateDescription fc.new])
  | none => (w, [])

/-- The `changes.title` block: report only (no room rename). -/
def titleParts : Option (FieldChange String) → List String
  | some fc => ["📝 **Title changed:** \"" ++ fc.old ++ "\" → \"" ++ fc.new ++ "\""]
  | none => []

/-- The `changes.content` block. -/
def contentParts (rfdLink : String) : Bool → List String
  | true => ["📄 **Content updated** - [View the latest version](" ++ rfdLink ++ ")"]
  | false => []

/-- The `changes.authors` block: `added = new \ old` by exact string
equality; when non-empty, resolve the parent room (a lookup only when the
discussion has one), add the new authors there, and report them. -/
def applyAuthorsChange (w : World) (discussion : Room) :
    Option (FieldChange (List String)) → World × List String
  | some fc =>
    let newAuthors := fc.new.filter (fun a => !(fc.old.contains a))
    if newAuthors ≠ [] then
      let pw :=
        match discussion.parentId with
        | some pid =>
          let w := tr w (Effect.getRoomById pid)
          (w, findRoomById w.chat pid)
        | none => (w, none)
      let w :=
        match pw.2 with
        | some parentRoom => addAuthors pw.1 discussion parentRoom newAuthors
        | none => pw.1
      (w, ["👤 **New authors added:** " ++ joinSep ", " newAuthors])
    else (w, [])
  | none => (w, [])

/-- The `changes.tags` block: one line with `+added` and `-removed`, only
when either is non-empty. -/
def tagsParts : Option (FieldChange (List String)) → List String
  | some fc =>
    let addedTags := fc.new.filter (fun t => !(fc.old.contains t))
    let removedTags := fc.old.filter (fun t => !(fc.new.contains t))
    if addedTags ≠ [] ∨ removedTags ≠ [] then
      ["🏷️ **Tags changed:**" ++
        (if addedTags ≠ [] then " +" ++ joinSep ", +" addedTags else "") ++
        (if removedTags ≠ [] then " -" ++ joinSep ", -" removedTags else "")]
    else []
  | none => []

/-- `DiscussionManager.updateDiscussion` (lines 371-465): extract the room
id from the URL (throw when there is none), resolve the room and the app
user (each throws on `NotFound`), apply the populated change blocks in the
fixed order state, title, content, authors, tags, and post the accumulated
summary as one message when it is non-empty. -/
def updateDiscussion (discussionUrl : String) (rfd : RFD) (rfdLink : String)
    (changes : RFDChanges) : App Unit := fun w =>
  match extractRoomIdFromUrl discussionUrl with
  | none => (Except.error ("Could not extract room ID from URL: " ++ discussionUrl), w)
  | some roomId =>
    let w := tr w (Effect.getRoomById roomId)
    match findRoomById w.chat roomId with
    | none => (Except.error ("Discussion room with ID " ++ roomId ++ " not found"), w)
    | some discussion =>
      let w := tr w Effect.getAppUser
      match w.chat.appUser with
      | none => (Except.error "App user not found", w)
      | some appUser =>
        let sw := applyStateChange w discussion rfd rfdLink changes.state
        let parts := sw.2 ++ titleParts changes.title ++ contentParts rfdLink changes.content
        let aw := applyAuthorsChange sw.1 discussion changes.authors
        let parts := parts ++ aw.2 ++ tagsParts changes.tags
        if parts ≠ [] then
          (Except.ok (),
            postMsg aw.1 discussion.id appUser.username
              ("🔄 **ADR Updated**\n\n" ++ joinSep "\n\n" parts))
        else (Except.ok (), aw.1)

/-! ## The webhook endpoint (src/unnamed/part_001, the current version) -/

/-- The shape of the endpoint's JSON responses. -/
structure ApiResponse where
  status : Nat
  success : Bool
  message : Option String
  error : Option String
  discussion : Option (String × String)
deriving DecidableEq

/-- `jsonResponse({success: true, message?, discussion?})`. -/
def jsonOk (message : Option String) (d : Option (String × String)) : ApiResponse :=
  ⟨200, true, message, none, d⟩

/-- `errorResponse(status, message)`. -/
def errorResponse (status : Nat) (msg : String) : ApiResponse :=
  ⟨status, false, none, some msg, none⟩

/-- The shared tail of `handleCreated` (lines 135-176): check persistence,
otherwise create, store the mapping, and answer with the discussion. -/
def lookupOrCreate (payload : WebhookPayload) (parentChannel siteUrl pfx : String) :
    App ApiResponse := fun w =>
  let key := storeKey payload.rfd.id
  let w := tr w (Effect.storeGet key)
  match lookupStore w.store key with
  | some ex =>
    (Except.ok (jsonOk (some "Discussion already exists (from persistence)")
      (some (ex.roomId, ex.roomUrl))), w)
  | none =>
    match createDiscussion parentChannel payload.rfd payload.link siteUrl pfx w with
    | (Except.error e, w) => (Except.error e, w)
    | (Except.ok (id, url), w) =>
      let w := { tr w (Effect.storePut key) with
        store := storeDiscussionFn w.store payload.rfd.id id url w.now }
      (Except.ok (jsonOk none (some (id, url))), w)

/-- `WebhookEndpoint.handleCreated` (lines 110-177): an incoming
discussion-reference is trusted verbatim (its id re-extracted with the
endpoint's own direct-only pattern, `|| ''`); otherwise look up persistence
or create. -/
def handleCreated (payload : WebhookPayload) (parentChannel siteUrl pfx : String) :
    App ApiResponse := fun w =>
  if payload.rfd.discussion ≠ "" then
    (Except.ok (jsonOk (some "Discussion already exists")
      (some ((endpointExtractRoomId payload.rfd.discussion).getD "", payload.rfd.discussion))), w)
  else lookupOrCreate payload parentChannel siteUrl pfx w

/-- `WebhookEndpoint.handleUpdated` (lines 184-254): take the discussion
URL from the payload, else from persistence; with none, create (and store);
with one but no `changes`, answer without work; otherwise run
`updateDiscussion`. -/
def handleUpdated (payload : WebhookPayload) (parentChannel siteUrl pfx : String) :
    App ApiResponse := fun w =>
  let dw :=
    if payload.rfd.discussion = "" then
      let key := storeKey payload.rfd.id
      let w := tr w (Effect.storeGet key)
      match lookupStore w.store key with
      | some ex => (ex.roomUrl, w)
      | none => ("", w)
    else (payload.rfd.discussion, w)
  let discussionUrl := dw.1
  let w := dw.2
  if discussionUrl = "" then
    match createDiscussion parentChannel payload.rfd payload.link siteUrl pfx w with
    | (Except.error e, w) => (Except.error e, w)
    | (Except.ok (id, url), w) =>
      let key := storeKey payload.rfd.id
      let w := { tr w (Effect.storePut key) with
        store := storeDiscussionFn w.store payload.rfd.id id url w.now }
      (Except.ok (jsonOk none (some (id, url))), w)
  else
    match payload.changes with
    | none => (Except.ok (jsonOk (some "No changes to process") none), w)
    | some ch =>
      match updateDiscussion discussionUrl payload.rfd payload.link ch w with
      | (Except.error e, w) => (Except.error e, w)
      | (Except.ok _, w) => (Except.ok (jsonOk none none), w)

/-- The payload before validation: `event` or `rfd` may be missing. -/
structure RawPayload where
  event : String
  timestamp : String
  rfd : Option RFD
  link : String
  changes : Option RFDChanges
deriving DecidableEq

/-- A transport request: the `x-rfd-signature` header (the empty string is
the absent header), the serialized body `JSON.stringify(request.content)`
(abstracted to a field), and the parsed content. -/
structure Request where
  signature : String
  bodyString : String
  payload : Option RawPayload
deriving DecidableEq

/-- The body of `WebhookEndpoint.post` (lines 27-100) before its catch:
settings checks, signature verification (a `sha256=`-prefixed signature
makes `verifySignature` throw, `none`), payload validation, site-URL
resolution, then dispatch on the event. -/
def postInner (secret parentChannel siteUrlOverride prefixSetting serverSiteUrl : String)
    (req : Request) : App ApiResponse := fun w =>
  let pfx := if prefixSetting = "" then "RFD" else prefixSetting
  if secret = "" then (Except.ok (errorResponse 500 "Webhook secret not configured"), w)
  else if parentChannel = "" then
    (Except.ok (errorResponse 500 "Parent channel not configured"), w)
  else
    match verifySignature req.bodyString req.signature secret with
    | none => (Except.error "RangeError: Offset is outside the bounds of the DataView", w)
    | some false => (Except.ok (errorResponse 401 "Invalid signature"), w)
    | some true =>
      match req.payload with
      | none => (Except.ok (errorResponse 400 "Invalid payload"), w)
      | some p =>
        if p.event = "" then (Except.ok (errorResponse 400 "Invalid payload"), w)
        else
          match p.rfd with
          | none => (Except.ok (errorResponse 400 "Invalid payload"), w)
          | some rfd =>
            let siteUrl := if siteUrlOverride ≠ "" then siteUrlOverride else serverSiteUrl
            let payload : WebhookPayload := ⟨p.event, p.timestamp, rfd, p.link, p.changes⟩
            if p.event = "rfd.created" then handleCreated payload parentChannel siteUrl pfx w
            else if p.event = "rfd.updated" then handleUpdated payload parentChannel siteUrl pfx w
            else (Except.ok (errorResponse 400 ("Unknown event type: " ++ p.event)), w)

/-- `WebhookEndpoint.post` with its surrounding try/catch: a thrown error
becomes a 500 response carrying the error message. -/
def post (secret parentChannel siteUrlOverride prefixSetting serverSiteUrl : String)
    (req : Request) : App ApiResponse := fun w =>
  match postInner secret parentChannel siteUrlOverride prefixSetting serverSiteUrl req w with
  | (Except.error e, w) => (Except.ok (errorResponse 500 e), w)
  | ok => ok

/-- Modelled from the spec: the webhook-handler branch that consults the
overwrite-invalid-discussion-url option is not under src/ — only the
setting's declaration (src/RfdDiscussionsApp.ts lines 81-89) and the
validity check `isValidDiscussionUrl` it relies on are.  Per the spec,
"when true, an invalid incoming discussion-reference triggers creation of a
replacement rather than being trusted": the incoming reference is trusted
exactly when it is present and either the option is off or the reference
passes `isValidDiscussionUrl`; otherwise the handler proceeds to the
persistence-lookup-or-create tail it shares with `handleCreated`. -/
def handleCreatedOverwrite (overwriteInvalid : Bool) (payload : WebhookPayload)
    (parentChannel siteUrl pfx : String) : App ApiResponse := fun w =>
  if payload.rfd.discussion ≠ "" ∧
      (overwriteInvalid = false ∨ isValidDiscussionUrl payload.rfd.discussion siteUrl = true) then
    (Except.ok (jsonOk (some "Discussion already exists")
      (some ((endpointExtractRoomId payload.rfd.discussion).getD "", payload.rfd.discussion))), w)
  else lookupOrCreate payload parentChannel siteUrl pfx w

/-! ## Frame machinery and claims about reconciliation -/
/-! ## Frame lemmas over the world -/

def Effect.isCreateRoom : Effect → Bool
  | .createRoom _ _ _ _ => true
  | _ => false

def countCreates : List Effect → Nat
  | [] => 0
  | e :: t => (if e.isCreateRoom then 1 else 0) + countCreates t

@[simp] theorem countCreates_nil : countCreates [] = 0 := rfl

@[simp] theorem countCreates_cons (e : Effect) (t : List Effect) :
    countCreates (e :: t) = (if e.isCreateRoom then 1 else 0) + countCreates t := rfl

@[simp] theorem countCreates_append (a b : List Effect) :
    countCreates (a ++ b) = countCreates a + countCreates b := by
  induction a with
  | nil => simp
  | cons e t ih => simp [ih]; omega

@[simp] theorem tr_chat (w : World) (e : Effect) : (tr w e).chat = w.chat := rfl
@[simp] theorem tr_store (w : World) (e : Effect) : (tr w e).store = w.store := rfl
@[simp] theorem tr_now (w : World) (e : Effect) : (tr w e).now = w.now := rfl
@[simp] theorem tr_trace (w : World) (e : Effect) : (tr w e).trace = w.trace ++ [e] := rfl

@[simp] theorem setRoomDescription_store (w : World) (r t : String) :
    (setRoomDescription w r t).store = w.store := rfl
@[simp] theorem setRoomDescription_now (w : World) (r t : String) :
    (setRoomDescription w r t).now = w.now := rfl
@[simp] theorem setRoomDescription_trace (w : World) (r t : String) :
    (setRoomDescription w r t).trace = w.trace ++ [Effect.setDescription r t] := rfl
@[simp] theorem setRoomDescription_appUser (w : World) (r t : String) :
    (setRoomDescription w r t).chat.appUser = w.chat.appUser := rfl

@[simp] theorem addMemberOp_store (w : World) (r u : String) :
    (addMemberOp w r u).store = w.store := rfl
@[simp] theorem addMemberOp_now (w : World) (r u : String) :
    (addMemberOp w r u).now = w.now := rfl
@[simp] theorem addMemberOp_trace (w : World) (r u : String) :
    (addMemberOp w r u).trace = w.trace ++ [Effect.addMember r u] := rfl
@[simp] theorem addMemberOp_users (w : World) (r u : String) :
    (addMemberOp w r u).chat.users = w.chat.users := rfl

@[simp] theorem postMsg_store (w : World) (r s t : String) :
    (postMsg w r s t).store = w.store := rfl
@[simp] theorem postMsg_now (w : World) (r s t : String) :
    (postMsg w r s t).now = w.now := rfl
@[simp] theorem postMsg_trace (w : World) (r s t : String) :
    (postMsg w r s t).trace = w.trace ++ [Effect.postMessage r s t] := rfl

/-- The store, the clock and the number of room-creation calls: the frame
most claims constrain. -/
def frame (w : World) : List (String × StoredDiscussion) × Nat × Nat :=
  (w.store, w.now, countCreates w.trace)

theorem authorLoop_frame (appUser : ChatUser) (discussion : Room) (members : List ChatUser) :
    ∀ (inputs : List String) (w : World),
      frame (authorLoop appUser discussion members inputs w) = frame w := by
  intro inputs
  induction inputs with
  | nil => intro w; rfl
  | cons a rest ih =>
    intro w
    rw [authorLoop]
    dsimp only
    split
    · exact ih w
    · split
      · rw [ih]
        simp [frame, Effect.isCreateRoom]
      · split
        · exact ih w
        · split
          · rw [ih]
            simp [frame, Effect.isCreateRoom]
          · rw [ih]
            simp [frame, Effect.isCreateRoom]

theorem addAuthors_frame (w : World) (discussion parentRoom : Room) (inputs : List String) :
    frame (addAuthors w discussion parentRoom inputs) = frame w := by
  unfold addAuthors
  dsimp only
  split
  · simp [frame, Effect.isCreateRoom]
  · rw [authorLoop_frame]
    simp [frame, Effect.isCreateRoom]

theorem string_room_ne_empty (s : String) : ("room" ++ s) ≠ "" := by
  intro e
  have h := congrArg String.data e
  simp [String.data_append] at h

theorem addAuthors_store (w : World) (d p : Room) (a : List String) :
    (addAuthors w d p a).store = w.store :=
  congrArg (fun t => t.1) (addAuthors_frame w d p a)

theorem addAuthors_now (w : World) (d p : Room) (a : List String) :
    (addAuthors w d p a).now = w.now :=
  congrArg (fun t => t.2.1) (addAuthors_frame w d p a)

theorem addAuthors_countCreates (w : World) (d p : Room) (a : List String) :
    countCreates (addAuthors w d p a).trace = countCreates w.trace :=
  congrArg (fun t => t.2.2) (addAuthors_frame w d p a)

theorem createDiscussion_spec (pc : String) (rfd : RFD) (link site pfx : String) (w : World)
    (pr : Room) (au : ChatUser)
    (hpr : findRoomByName w.chat pc = some pr)
    (hau : w.chat.appUser = some au) :
    ∃ w', createDiscussion pc rfd link site pfx w =
        (Except.ok ("room" ++ toString w.chat.nextId,
          buildDeepLink site ("group/" ++ ("room" ++ toString w.chat.nextId))), w') ∧
      w'.store = w.store ∧ w'.now = w.now ∧
      countCreates w'.trace = countCreates w.trace + 1 := by
  unfold createDiscussion
  simp only [tr_chat, tr_store, tr_now, tr_trace, hpr, hau]
  rw [if_neg (string_room_ne_empty (toString w.chat.nextId))]
  simp only [tr_chat, tr_trace, findRoomById, List.find?_cons, beq_self_eq_true]
  refine ⟨_, rfl, ?_, ?_, ?_⟩
  · simp [addAuthors_store]
  · simp [addAuthors_now]
  · simp [addAuthors_countCreates, Effect.isCreateRoom]

theorem postMsg_frame (w : World) (r s t : String) : frame (postMsg w r s t) = frame w := by
  simp [frame, Effect.isCreateRoom]

theorem applyStateChange_frame (w : World) (d : Room) (rfd : RFD) (l : String)
    (o : Option (FieldChange RFDState)) : frame (applyStateChange w d rfd l o).1 = frame w := by
  cases o with
  | none => rfl
  | some fc => simp [applyStateChange, frame, Effect.isCreateRoom]

theorem applyAuthorsChange_frame (w : World) (d : Room)
    (o : Option (FieldChange (List String))) : frame (applyAuthorsChange w d o).1 = frame w := by
  cases o with
  | none => rfl
  | some fc =>
    unfold applyAuthorsChange
    dsimp only
    split
    · cases hp : d.parentId with
      | some pid =>
        simp only [hp]
        cases hf : findRoomById (tr w (Effect.getRoomById pid)).chat pid with
        | some parentRoom =>
          simp only [hf]
          rw [addAuthors_frame]
          simp [frame, Effect.isCreateRoom]
        | none =>
          simp only [hf]
          simp [frame, Effect.isCreateRoom]
      | none => simp only [hp]
    · rfl

theorem updateDiscussion_frame (u : String) (rfd : RFD) (link : String) (ch : RFDChanges)
    (w : World) : frame ((updateDiscussion u rfd link ch w).2) = frame w := by
  unfold updateDiscussion
  split
  · rfl
  · try dsimp only
    split
    · simp [frame, Effect.isCreateRoom]
    · try dsimp only
      split
      · simp [frame, Effect.isCreateRoom]
      · try dsimp only
        split
        · rw [postMsg_frame, applyAuthorsChange_frame, applyStateChange_frame]
          simp [frame, Effect.isCreateRoom]
        · rw [applyAuthorsChange_frame, applyStateChange_frame]
          simp [frame, Effect.isCreateRoom]

theorem find?_map_assoc (k : String) (v : StoredDiscussion) :
    ∀ s : List (String × StoredDiscussion),
      (s.map (fun p => if p.1 == k then (k, v) else p)).find? (fun p => p.1 == k) =
        (s.find? (fun p => p.1 == k)).map (fun _ => (k, v)) := by
  intro s
  induction s with
  | nil => rfl
  | cons p rest ih =>
    by_cases hp : (p.1 == k) = true
    · have he : p.1 = k := by simpa using hp
      simp [List.find?_cons, he]
    · simp only [List.map_cons, if_neg hp, List.find?_cons]
      rw [Bool.of_not_eq_true hp]
      exact ih

theorem find?_append_right {α : Type} (p : α → Bool) (l1 l2 : List α)
    (h : l1.find? p = none) : (l1 ++ l2).find? p = l2.find? p := by
  rw [List.find?_append, h, Option.none_or]

theorem lookupStore_assocUpdate_self (s : List (String × StoredDiscussion)) (k : String)
    (v : StoredDiscussion) : lookupStore (assocUpdate s k v) k = some v := by
  unfold lookupStore assocUpdate
  by_cases hf : (s.find? (fun p => p.1 == k)).isSome
  · rw [if_pos hf, find?_map_assoc]
    obtain ⟨x, hx⟩ := Option.isSome_iff_exists.mp hf
    rw [hx]
    rfl
  · rw [if_neg hf]
    rw [find?_append_right _ s [(k, v)] (Option.not_isSome_iff_eq_none.mp hf)]
    simp [List.find?_cons]

theorem filter_key_length_one (s : List (String × StoredDiscussion)) (k : String)
    (v : StoredDiscussion) (hnone : s.find? (fun p => p.1 == k) = none) :
    ((s ++ [(k, v)]).filter (fun q => q.1 == k)).length = 1 := by
  rw [List.filter_append]
  have h1 : s.filter (fun q => q.1 == k) = [] := by
    rw [List.filter_eq_nil_iff]
    intro x hx
    exact (List.find?_eq_none.mp hnone x hx)
  rw [h1]
  simp [List.filter]

theorem lookupOrCreate_spec (p : WebhookPayload) (pc site pfx : String) (w : World)
    (pr : Room) (au : ChatUser)
    (hstore : lookupStore w.store (storeKey p.rfd.id) = none)
    (hpr : findRoomByName w.chat pc = some pr)
    (hau : w.chat.appUser = some au) :
    ∃ w1, lookupOrCreate p pc site pfx w =
        (Except.ok (jsonOk none (some ("room" ++ toString w.chat.nextId,
          buildDeepLink site ("group/" ++ ("room" ++ toString w.chat.nextId))))), w1) ∧
      w1.store = storeDiscussionFn w.store p.rfd.id ("room" ++ toString w.chat.nextId)
        (buildDeepLink site ("group/" ++ ("room" ++ toString w.chat.nextId))) w.now ∧
      countCreates w1.trace = countCreates w.trace + 1 := by
  obtain ⟨w', hcd, hst, hnow, hcc⟩ :=
    createDiscussion_spec pc p.rfd p.link site pfx (tr w (Effect.storeGet (storeKey p.rfd.id)))
      pr au (by simpa using hpr) (by simpa using hau)
  unfold lookupOrCreate
  simp only [tr_store, tr_chat, tr_trace] at hcd hst hnow hcc ⊢
  rw [show lookupStore w.store (storeKey p.rfd.id) = none from hstore]
  dsimp only
  rw [hcd]
  refine ⟨_, rfl, ?_, ?_⟩
  · simp [hst, hnow]
  · simp only [tr_trace, countCreates_append, hcc]
    simp [Effect.isCreateRoom]

/-- C2: delivering the same `rfd.created` payload twice for the same
record-id, with no discussion-reference on the record, stores exactly one
DiscussionRecord and makes exactly one room-creation collaborator call; the
second delivery answers with the same (id, url) pair from persistence,
without creating again and without touching the store. -/
theorem handleCreated_idempotent (p : WebhookPayload) (pc site pfx : String) (w : World)
    (pr : Room) (au : ChatUser)
    (hdisc : p.rfd.discussion = "")
    (hstore : lookupStore w.store (storeKey p.rfd.id) = none)
    (hpr : findRoomByName w.chat pc = some pr)
    (hau : w.chat.appUser = some au) :
    ∃ id url w1 w2,
      handleCreated p pc site pfx w = (Except.ok (jsonOk none (some (id, url))), w1) ∧
      lookupStore w1.store (storeKey p.rfd.id) = some ⟨p.rfd.id, id, url, w.now⟩ ∧
      (w1.store.filter (fun q => q.1 == storeKey p.rfd.id)).length = 1 ∧
      countCreates w1.trace = countCreates w.trace + 1 ∧
      handleCreated p pc site pfx w1 =
        (Except.ok (jsonOk (some "Discussion already exists (from persistence)")
          (some (id, url))), w2) ∧
      w2.store = w1.store ∧
      countCreates w2.trace = countCreates w1.trace := by
  obtain ⟨w1, hrun, hst, hcc⟩ := lookupOrCreate_spec p pc site pfx w pr au hstore hpr hau
  have hfindnone : w.store.find? (fun q => q.1 == storeKey p.rfd.id) = none := by
    have := hstore
    unfold lookupStore at this
    exact Option.map_eq_none.mp this
  have hw1store : w1.store = w.store ++ [(storeKey p.rfd.id,
      ⟨p.rfd.id, "room" ++ toString w.chat.nextId,
        buildDeepLink site ("group/" ++ ("room" ++ toString w.chat.nextId)), w.now⟩)] := by
    rw [hst]
    unfold storeDiscussionFn assocUpdate
    rw [if_neg (by simp [hfindnone])]
  have hlook1 : lookupStore w1.store (storeKey p.rfd.id) =
      some ⟨p.rfd.id, "room" ++ toString w.chat.nextId,
        buildDeepLink site ("group/" ++ ("room" ++ toString w.chat.nextId)), w.now⟩ := by
    rw [hst]
    unfold storeDiscussionFn
    exact lookupStore_assocUpdate_self _ _ _
  refine ⟨"room" ++ toString w.chat.nextId,
    buildDeepLink site ("group/" ++ ("room" ++ toString w.chat.nextId)),
    w1, tr w1 (Effect.storeGet (storeKey p.rfd.id)), ?_, ?_, ?_, ?_, ?_, ?_, ?_⟩
  · unfold handleCreated
    rw [if_neg (by simp [hdisc])]
    exact hrun
  · exact hlook1
  · rw [hw1store]
    exact filter_key_length_one w.store _ _ hfindnone
  · exact hcc
  · unfold handleCreated lookupOrCreate
    rw [if_neg (by simp [hdisc])]
    simp only [tr_store]
    rw [hlook1]
  · rfl
  · simp [Effect.isCreateRoom]

def emptyChanges : RFDChanges := ⟨none, none, none, none, none, false⟩

theorem updateDiscussion_noop (u : String) (rfd : RFD) (link : String) (w : World)
    (rid : String) (room : Room) (au : ChatUser)
    (hx : extractRoomIdFromUrl u = some rid)
    (hr : findRoomById w.chat rid = some room)
    (hau : w.chat.appUser = some au) :
    updateDiscussion u rfd link emptyChanges w =
      (Except.ok (), { w with trace := w.trace ++ [Effect.getRoomById rid, Effect.getAppUser] }) := by
  unfold updateDiscussion
  rw [hx]
  simp only [tr_chat, hr, hau]
  simp only [emptyChanges, applyStateChange, titleParts, contentParts, applyAuthorsChange, tagsParts]
  simp [tr, List.append_assoc]

/-- C4 (amended): for an update delivery whose ChangeSet has every field
absent or false, processing performs no mutating collaborator call — no
room creation, no description set, no membership change, no message post —
and returns a success response; it does, however, resolve the discussion
room and the app user, so the trace is exactly those two lookups. -/
theorem handleUpdated_noop (p : WebhookPayload) (pc site pfx : String) (w : World)
    (rid : String) (room : Room) (au : ChatUser)
    (hne : p.rfd.discussion ≠ "")
    (hch : p.changes = some emptyChanges)
    (hx : extractRoomIdFromUrl p.rfd.discussion = some rid)
    (hr : findRoomById w.chat rid = some room)
    (hau : w.chat.appUser = some au) :
    handleUpdated p pc site pfx w =
      (Except.ok (jsonOk none none),
       { w with trace := w.trace ++ [Effect.getRoomById rid, Effect.getAppUser] }) := by
  unfold handleUpdated
  rw [if_neg hne]
  simp only
  rw [if_neg hne, hch]
  simp only
  rw [updateDiscussion_noop p.rfd.discussion p.rfd p.link w rid room au hx hr hau]

theorem updateDiscussion_store (u : String) (rfd : RFD) (link : String) (ch : RFDChanges)
    (w : World) : ((updateDiscussion u rfd link ch w).2).store = w.store :=
  congrArg (fun t => t.1) (updateDiscussion_frame u rfd link ch w)

/-- C3 (amended): `storeDiscussion` is an unconditional upsert that
stamps created-at with the time of the write, overwriting any existing
record for the key; the handlers, however, only reach a store write after
finding no stored record (and, for updates, no usable reference), so a
webhook delivery never rewrites an existing DiscussionRecord —
`handleCreated` leaves the store unchanged whenever the record-id already
has an entry, and so does `handleUpdated` whenever that entry carries a
non-empty room URL. -/
theorem storeDiscussion_upsert_semantics :
    (∀ (s : List (String × StoredDiscussion)) (rid roomId roomUrl : String) (t : Nat),
      lookupStore (storeDiscussionFn s rid roomId roomUrl t) (storeKey rid) =
        some ⟨rid, roomId, roomUrl, t⟩) ∧
    (∀ (p : WebhookPayload) (pc site pfx : String) (w : World) (ex : StoredDiscussion),
      lookupStore w.store (storeKey p.rfd.id) = some ex →
      ((handleCreated p pc site pfx w).2).store = w.store) ∧
    (∀ (p : WebhookPayload) (pc site pfx : String) (w : World) (ex : StoredDiscussion),
      lookupStore w.store (storeKey p.rfd.id) = some ex → ex.roomUrl ≠ "" →
      ((handleUpdated p pc site pfx w).2).store = w.store) := by
  refine ⟨?_, ?_, ?_⟩
  · intro s rid roomId roomUrl t
    exact lookupStore_assocUpdate_self s (storeKey rid) ⟨rid, roomId, roomUrl, t⟩
  · intro p pc site pfx w ex hex
    unfold handleCreated
    by_cases hd : p.rfd.discussion = ""
    · rw [if_neg (by simp [hd])]
      unfold lookupOrCreate
      simp only [tr_store]
      rw [hex]
      rfl
    · rw [if_pos hd]
  · intro p pc site pfx w ex hex hur
    unfold handleUpdated
    by_cases hd : p.rfd.discussion = ""
    · rw [if_pos hd]
      simp only [tr_store]
      rw [hex]
      simp only
      rw [if_neg hur]
      cases p.changes with
      | none => rfl
      | some ch =>
        simp only
        have hst := updateDiscussion_store ex.roomUrl p.rfd p.link ch (tr w (Effect.storeGet (storeKey p.rfd.id)))
        simp only [tr_store] at hst
        cases hu : updateDiscussion ex.roomUrl p.rfd p.link ch (tr w (Effect.storeGet (storeKey p.rfd.id))) with
        | mk r w2 =>
          rw [hu] at hst
          cases r with
          | error e => exact hst
          | ok v => exact hst
    · rw [if_neg hd]
      simp only
      rw [if_neg hd]
      cases p.changes with
      | none => rfl
      | some ch =>
        simp only
        have hst := updateDiscussion_store p.rfd.discussion p.rfd p.link ch w
        cases hu : updateDiscussion p.rfd.discussion p.rfd p.link ch w with
        | mk r w2 =>
          rw [hu] at hst
          cases r with
          | error e => exact hst
          | ok v => exact hst

/-- C8: with the overwrite-invalid-discussion-url option true and an
incoming discussion-reference that fails `isValidDiscussionUrl`, processing
runs the create path — one room-creation call, the fresh room stored and
returned — instead of trusting the incoming reference; with the option
false the same request is trusted and echoed back verbatim.  (The handler
branch is modelled from the spec, see `handleCreatedOverwrite`.) -/
theorem handleCreatedOverwrite_spec (p : WebhookPayload) (pc site pfx : String) (w : World)
    (pr : Room) (au : ChatUser)
    (hdisc : p.rfd.discussion ≠ "")
    (hinv : isValidDiscussionUrl p.rfd.discussion site = false)
    (hstore : lookupStore w.store (storeKey p.rfd.id) = none)
    (hpr : findRoomByName w.chat pc = some pr)
    (hau : w.chat.appUser = some au) :
    handleCreatedOverwrite false p pc site pfx w =
      (Except.ok (jsonOk (some "Discussion already exists")
        (some ((endpointExtractRoomId p.rfd.discussion).getD "", p.rfd.discussion))), w) ∧
    (∃ w1, handleCreatedOverwrite true p pc site pfx w =
        (Except.ok (jsonOk none (some ("room" ++ toString w.chat.nextId,
          buildDeepLink site ("group/" ++ ("room" ++ toString w.chat.nextId))))), w1) ∧
      countCreates w1.trace = countCreates w.trace + 1 ∧
      lookupStore w1.store (storeKey p.rfd.id) =
        some ⟨p.rfd.id, "room" ++ toString w.chat.nextId,
          buildDeepLink site ("group/" ++ ("room" ++ toString w.chat.nextId)), w.now⟩) := by
  constructor
  · unfold handleCreatedOverwrite
    rw [if_pos ⟨hdisc, Or.inl rfl⟩]
  · obtain ⟨w1, hrun, hst, hcc⟩ := lookupOrCreate_spec p pc site pfx w pr au hstore hpr hau
    refine ⟨w1, ?_, hcc, ?_⟩
    · unfold handleCreatedOverwrite
      rw [if_neg ?_]
      · exact hrun
      · rintro ⟨-, h | h⟩
        · exact absurd h (by simp)
        · rw [hinv] at h
          exact absurd h (by simp)
    · rw [hst]
      unfold storeDiscussionFn
      exact lookupStore_assocUpdate_self _ _ _

/-- C9: signature verification strictly precedes payload validation — for
every request on which `verifySignature` returns false (in particular every
request with a missing `x-rfd-signature` header, per the second conjunct),
the handler returns the 401 unauthorized response whatever the payload
holds, and the world, trace included, is completely unchanged: no payload
inspection influences the response and no side effect occurs. -/
theorem post_unauthorized_before_payload (secret pc override pfxS server : String)
    (req : Request) (w : World)
    (hsec : secret ≠ "") (hpc : pc ≠ "")
    (hsig : verifySignature req.bodyString req.signature secret = some false) :
    post secret pc override pfxS server req w =
      (Except.ok (errorResponse 401 "Invalid signature"), w) ∧
    (∀ body s : String, verifySignature body "" s = some false) := by
  constructor
  · unfold post postInner
    rw [if_neg hsec, if_neg hpc, hsig]
  · intro body s
    unfold verifySignature
    rw [if_pos (Or.inl rfl)]

def sampleRfd : RFD :=
  ⟨"0042", "Implement caching", ["alice@x.com"], RFDState.ideation, "", ["perf"],
   "c", "cm", "t0", "t1"⟩

def sampleChat : Chat :=
  ⟨[⟨"r0", "adrs", none, ""⟩], [("r0", [⟨"alice", ["alice@x.com"]⟩])], [],
   some ⟨"rfd-app", []⟩, 0, []⟩

def sampleWorld : World := ⟨sampleChat, [], 5, []⟩

def samplePayload : WebhookPayload :=
  ⟨"rfd.created", "ts", sampleRfd, "https://rfd.example.com/0042", none⟩

theorem handleCreated_idempotent_witness :
    samplePayload.rfd.discussion = "" ∧
    lookupStore sampleWorld.store (storeKey samplePayload.rfd.id) = none ∧
    findRoomByName sampleWorld.chat "adrs" = some ⟨"r0", "adrs", none, ""⟩ ∧
    sampleWorld.chat.appUser = some ⟨"rfd-app", []⟩ ∧
    (∃ id url w1 w2,
      handleCreated samplePayload "adrs" "https://chat.example.com" "RFD" sampleWorld =
        (Except.ok (jsonOk none (some (id, url))), w1) ∧
      lookupStore w1.store (storeKey samplePayload.rfd.id) =
        some ⟨samplePayload.rfd.id, id, url, sampleWorld.now⟩ ∧
      (w1.store.filter (fun q => q.1 == storeKey samplePayload.rfd.id)).length = 1 ∧
      countCreates w1.trace = countCreates sampleWorld.trace + 1 ∧
      handleCreated samplePayload "adrs" "https://chat.example.com" "RFD" w1 =
        (Except.ok (jsonOk (some "Discussion already exists (from persistence)")
          (some (id, url))), w2) ∧
      w2.store = w1.store ∧
      countCreates w2.trace = countCreates w1.trace) :=
  ⟨by decide, by decide, by decide, by decide,
    handleCreated_idempotent samplePayload "adrs" "https://chat.example.com" "RFD"
      sampleWorld ⟨"r0", "adrs", none, ""⟩ ⟨"rfd-app", []⟩
      (by decide) (by decide) (by decide) (by decide)⟩

/-- Counterexample to C3 as stated: `storeDiscussion` stamps created-at
with the current time on every write, not only the first — a second write
for key 0042 at time 9 replaces the record created at time 5, so created-at
is set on a non-first write and the existing record is mutated. -/
theorem storeDiscussion_restamps_createdAt :
    lookupStore (storeDiscussionFn [] "0042" "r1" "u1" 5) (storeKey "0042") =
      some ⟨"0042", "r1", "u1", 5⟩ ∧
    lookupStore (storeDiscussionFn (storeDiscussionFn [] "0042" "r1" "u1" 5)
        "0042" "r1" "u1" 9) (storeKey "0042") =
      some ⟨"0042", "r1", "u1", 9⟩ := by
  constructor <;> decide

def storedWorld : World :=
  ⟨sampleChat,
   [("rfd-discussion:0042", ⟨"0042", "room0",
     "https://go.rocket.chat/room?host=chat.example.com&path=group%2Froom0", 5⟩)], 6, []⟩

theorem storeDiscussion_upsert_semantics_witness :
    (lookupStore (storeDiscussionFn [] "0042" "r1" "u1" 5) (storeKey "0042") =
      some ⟨"0042", "r1", "u1", 5⟩) ∧
    (lookupStore storedWorld.store (storeKey samplePayload.rfd.id) =
      some ⟨"0042", "room0",
        "https://go.rocket.chat/room?host=chat.example.com&path=group%2Froom0", 5⟩ ∧
     ((handleCreated samplePayload "adrs" "https://chat.example.com" "RFD"
        storedWorld).2).store = storedWorld.store ∧
     ((handleUpdated samplePayload "adrs" "https://chat.example.com" "RFD"
        storedWorld).2).store = storedWorld.store) :=
  ⟨storeDiscussion_upsert_semantics.1 [] "0042" "r1" "u1" 5,
   by decide,
   storeDiscussion_upsert_semantics.2.1 samplePayload "adrs" "https://chat.example.com" "RFD"
     storedWorld ⟨"0042", "room0",
       "https://go.rocket.chat/room?host=chat.example.com&path=group%2Froom0", 5⟩ (by decide),
   storeDiscussion_upsert_semantics.2.2 samplePayload "adrs" "https://chat.example.com" "RFD"
     storedWorld ⟨"0042", "room0",
       "https://go.rocket.chat/room?host=chat.example.com&path=group%2Froom0", 5⟩
     (by decide) (by decide)⟩

deriving instance DecidableEq for Except

def noopRoomWorld : World :=
  ⟨⟨[⟨"ROOM1", "rfd-42", none, ""⟩], [("ROOM1", [])], [], some ⟨"rfd-app", []⟩, 0, []⟩,
   [], 7, []⟩

def noopPayload : WebhookPayload :=
  ⟨"rfd.updated", "ts",
   { sampleRfd with discussion := "https://chat.example.com/group/ROOM1" },
   "https://rfd.example.com/0042", some emptyChanges⟩

/-- Counterexample to C4 as stated: an update delivery whose ChangeSet has
every field absent still performs collaborator calls — the trace of the
delivery holds a room lookup and an app-user lookup, so "zero collaborator
calls" is false (the response is still a success). -/
theorem noop_update_calls_collaborators :
    (handleUpdated noopPayload "adrs" "https://chat.example.com" "RFD" noopRoomWorld).1 =
      Except.ok (jsonOk none none) ∧
    ((handleUpdated noopPayload "adrs" "https://chat.example.com" "RFD" noopRoomWorld).2).trace =
      [Effect.getRoomById "ROOM1", Effect.getAppUser] ∧
    ((handleUpdated noopPayload "adrs" "https://chat.example.com" "RFD" noopRoomWorld).2).trace ≠
      [] := by
  refine ⟨by decide, by decide, by decide⟩

theorem handleUpdated_noop_witness :
    noopPayload.rfd.discussion ≠ "" ∧
    noopPayload.changes = some emptyChanges ∧
    extractRoomIdFromUrl noopPayload.rfd.discussion = some "ROOM1" ∧
    findRoomById noopRoomWorld.chat "ROOM1" = some ⟨"ROOM1", "rfd-42", none, ""⟩ ∧
    noopRoomWorld.chat.appUser = some ⟨"rfd-app", []⟩ ∧
    handleUpdated noopPayload "adrs" "https://chat.example.com" "RFD" noopRoomWorld =
      (Except.ok (jsonOk none none),
       { noopRoomWorld with trace := noopRoomWorld.trace ++
         [Effect.getRoomById "ROOM1", Effect.getAppUser] }) :=
  ⟨by decide, by decide, by decide, by decide, by decide,
    handleUpdated_noop noopPayload "adrs" "https://chat.example.com" "RFD" noopRoomWorld
      "ROOM1" ⟨"ROOM1", "rfd-42", none, ""⟩ ⟨"rfd-app", []⟩
      (by decide) (by decide) (by decide) (by decide) (by decide)⟩

def invalidRefPayload : WebhookPayload :=
  ⟨"rfd.created", "ts",
   { sampleRfd with discussion := "https://github.com/org/repo/pull/7" },
   "https://rfd.example.com/0042", none⟩

theorem handleCreatedOverwrite_spec_witness :
    invalidRefPayload.rfd.discussion ≠ "" ∧
    isValidDiscussionUrl invalidRefPayload.rfd.discussion "https://chat.example.com" = false ∧
    lookupStore sampleWorld.store (storeKey invalidRefPayload.rfd.id) = none ∧
    (handleCreatedOverwrite false invalidRefPayload "adrs" "https://chat.example.com" "RFD"
        sampleWorld =
      (Except.ok (jsonOk (some "Discussion already exists")
        (some ((endpointExtractRoomId invalidRefPayload.rfd.discussion).getD "",
          invalidRefPayload.rfd.discussion))), sampleWorld) ∧
     ∃ w1, handleCreatedOverwrite true invalidRefPayload "adrs" "https://chat.example.com" "RFD"
          sampleWorld =
        (Except.ok (jsonOk none (some ("room" ++ toString sampleWorld.chat.nextId,
          buildDeepLink "https://chat.example.com"
            ("group/" ++ ("room" ++ toString sampleWorld.chat.nextId))))), w1) ∧
      countCreates w1.trace = countCreates sampleWorld.trace + 1 ∧
      lookupStore w1.store (storeKey invalidRefPayload.rfd.id) =
        some ⟨invalidRefPayload.rfd.id, "room" ++ toString sampleWorld.chat.nextId,
          buildDeepLink "https://chat.example.com"
            ("group/" ++ ("room" ++ toString sampleWorld.chat.nextId)), sampleWorld.now⟩) :=
  ⟨by decide, by decide, by decide,
    handleCreatedOverwrite_spec invalidRefPayload "adrs" "https://chat.example.com" "RFD"
      sampleWorld ⟨"r0", "adrs", none, ""⟩ ⟨"rfd-app", []⟩
      (by decide) (by decide) (by decide) (by decide) (by decide)⟩

theorem post_unauthorized_before_payload_witness :
    ("s3cret" : String) ≠ "" ∧ ("adrs" : String) ≠ "" ∧
    verifySignature "{}" "" "s3cret" = some false ∧
    (post "s3cret" "adrs" "" "" "https://chat.example.com"
        ⟨"", "{}", none⟩ sampleWorld =
      (Except.ok (errorResponse 401 "Invalid signature"), sampleWorld) ∧
     ∀ body s : String, verifySignature body "" s = some false) :=
  ⟨by decide, by decide, by decide,
    post_unauthorized_before_payload "s3cret" "adrs" "" "" "https://chat.example.com"
      ⟨"", "{}", none⟩ sampleWorld (by decide) (by decide) (by decide)⟩
